import Mathlib

/-!
Menu widget (`applications/services/gui/modules/menu.c`).

A shallow embedding of the menu module's model, of its navigation functions
(`menu_process_up`, `menu_process_down`, `menu_process_left`,
`menu_process_right`, `menu_process_ok`), of its facade (`menu_pos_alloc`,
`menu_add_item`, `menu_reset`, `menu_set_selected_item`), of its input, timer
and visibility callbacks and of its renderer `menu_draw_callback`.

Conventions.

* `size_t` and `int` are 32 bits wide (the firmware runs on a 32-bit ARM
  core).  A `size_t` value is a `Nat` below `SIZE_T_MOD`; every `size_t`
  addition and subtraction is reduced modulo `SIZE_T_MOD` explicitly.
* A `Menu` is the model guarded by the view lock together with the `trace`
  of calls made to external collaborators (icon animations, the activation
  callback, the scroll timer), oldest first.  Each C function that takes a `Menu*` becomes a
  function `Menu → Menu`; the style read from `CFW_SETTINGS()` is an explicit
  argument.
* The renderer is a function from the model to the list of calls it makes on
  the canvas, in order; it yields `none` when it reads an item out of range.
  The outcome of its comparisons of a label pointer with a string literal is
  an argument (`LabelIsLiteral`), the model holding texts and not addresses.
-/

namespace MenuSpec

/-! ## Machine integers -/

/-- Number of values of a `size_t` (and of an `unsigned int`). -/
def SIZE_T_MOD : Nat := 4294967296

/-- Largest value of an `int`. -/
def INT_MAX : Nat := 2147483647

/-- The `size_t` sum `a + b`. -/
def size_t_add (a b : Nat) : Nat := (a + b) % SIZE_T_MOD

/-- The `size_t` difference `a - b`, wrapping below zero. -/
def size_t_sub (a b : Nat) : Nat := (a % SIZE_T_MOD + SIZE_T_MOD - b % SIZE_T_MOD) % SIZE_T_MOD

/-- The cast `(int)x` of a `size_t`: the two's-complement reading of its 32 bits. -/
def size_t_to_int (x : Nat) : Int :=
  if x % SIZE_T_MOD ≤ INT_MAX then ((x % SIZE_T_MOD : Nat) : Int)
  else ((x % SIZE_T_MOD : Nat) : Int) - (SIZE_T_MOD : Int)

/-- The conversion of an `int` (or of a promoted `int8_t`) to `size_t`. -/
def int_to_size_t (x : Int) : Nat := (x % (SIZE_T_MOD : Int)).toNat

/-- Modelled from the spec: the `MAX(a, b)` macro of the firmware core headers,
which are not part of the sources at hand; the larger of two `int`s. -/
def MAX (a b : Int) : Int := if a > b then a else b

/-- Modelled from the spec: the `MIN(a, b)` macro of the firmware core headers,
which are not part of the sources at hand; the smaller of two `int`s. -/
def MIN (a b : Int) : Int := if a < b then a else b

/-- Modelled from the spec: the `CLAMP(x, upper, lower)` macro of the firmware
core headers, which are not part of the sources at hand; `x` limited to the
range from `lower` to `upper`. -/
def CLAMP (x upper lower : Int) : Int := MIN upper (MAX x lower)

/-! ## Data model -/

/-- The layout styles `CFW_SETTINGS()->menu_style` ranges over. -/
inductive MenuStyle where
  | MenuStyleList
  | MenuStyleWii
  | MenuStyleDsi
  | MenuStyleVertical
  deriving DecidableEq, Repr

/-- An icon of the asset catalogue, as far as the menu looks at it. -/
structure Icon where
  name : String
  width : Nat
  height : Nat
  deriving DecidableEq, Repr

/-- An icon animation instance, allocated from an icon. -/
structure IconAnimation where
  icon : Icon
  deriving DecidableEq, Repr

/-- The C struct `MenuItem`.  A function pointer and a context pointer are
opaque numbers; `none` is the null pointer. -/
structure MenuItem where
  label : String
  icon : Option IconAnimation
  index : Nat
  callback : Option Nat
  callback_context : Nat
  deriving DecidableEq, Repr

/-- The C struct `MenuModel`. -/
structure MenuModel where
  items : List MenuItem
  position : Nat
  scroll_counter : Nat
  vertical_offset : Nat
  deriving DecidableEq, Repr

/-- A call made to an external collaborator. -/
inductive Effect where
  | icon_animation_alloc (icon : Icon)
  | view_tie_icon_animation (animation : IconAnimation)
  | icon_animation_start (animation : IconAnimation)
  | icon_animation_stop (animation : IconAnimation)
  | icon_animation_free (animation : IconAnimation)
  | callback (fn : Nat) (context : Nat) (index : Nat)
  | furi_timer_start (ticks : Nat)
  | furi_timer_stop
  deriving DecidableEq, Repr

/-- The widget: its locked model and the calls it has made so far. -/
structure Menu where
  model : MenuModel
  trace : List Effect
  deriving DecidableEq, Repr

/-- The element count of the item array (`MenuItemArray_size`). -/
def MenuItemArray_size (items : List MenuItem) : Nat := items.length

/-- The element at an index (`MenuItemArray_get`).  Out of range the C
function yields the null pointer on an empty array at index 0 and an
unusable pointer otherwise; both are `none` here. -/
def MenuItemArray_get (items : List MenuItem) (i : Nat) : Option MenuItem := items.get? i

/-- The guarded call `if(item && item->icon) icon_animation_stop(item->icon)`. -/
def stop_item_icon (item : Option MenuItem) : List Effect :=
  match item with
  | some it =>
    match it.icon with
    | some a => [Effect.icon_animation_stop a]
    | none => []
  | none => []

/-- The guarded call `if(item && item->icon) icon_animation_start(item->icon)`. -/
def start_item_icon (item : Option MenuItem) : List Effect :=
  match item with
  | some it =>
    match it.icon with
    | some a => [Effect.icon_animation_start a]
    | none => []
  | none => []

/-- The assignment shared by the four grid-pair branches:
`vertical_offset = CLAMP(MAX((int)position - 4, 0), MAX((int)count - 8, 0), 0)`. -/
def wii_vertical_offset (position count : Nat) : Nat :=
  int_to_size_t (CLAMP (MAX (size_t_to_int position - 4) 0) (MAX (size_t_to_int count - 8) 0) 0)

/-! ## Facade -/

/-- Modelled from the spec: the default fallback icon `A_Plugins_14` of the
asset catalogue, which is not part of the sources at hand. -/
def A_Plugins_14 : Icon := { name := "Plugins_14", width := 14, height := 14 }

/-- The function `menu_pos_alloc`: an empty store, the given position, the
remaining fields zeroed by the model allocation. -/
def menu_pos_alloc (pos : Nat) : Menu :=
  { model := { items := [], position := pos, scroll_counter := 0, vertical_offset := 0 },
    trace := [] }

/-- The function `menu_add_item`; `icon = none` is the null icon pointer. -/
def menu_add_item (menu : Menu) (label : String) (icon : Option Icon) (index : Nat)
    (callback : Option Nat) (context : Nat) : Menu :=
  let source : Icon :=
    match icon with
    | some ic => ic
    | none => A_Plugins_14
  let animation : IconAnimation := { icon := source }
  let item : MenuItem :=
    { label := label, icon := some animation, index := index, callback := callback,
      callback_context := context }
  { model := { menu.model with items := menu.model.items ++ [item] },
    trace := menu.trace ++
      [Effect.icon_animation_alloc source, Effect.view_tie_icon_animation animation] }

/-- The loop body of `menu_reset` for one item: stop, then free, its animation.
The loop does not test the pointer; an item without animation adds nothing. -/
def reset_item_effects (item : MenuItem) : List Effect :=
  match item.icon with
  | some a => [Effect.icon_animation_stop a, Effect.icon_animation_free a]
  | none => []

/-- The function `menu_reset`. -/
def menu_reset (menu : Menu) : Menu :=
  { model := { menu.model with items := [], position := 0 },
    trace := menu.trace ++ (menu.model.items.map reset_item_effects).flatten }

/-- The function `menu_set_selected_item`. -/
def menu_set_selected_item (menu : Menu) (index : Nat) : Menu :=
  if index < MenuItemArray_size menu.model.items then
    { menu with model := { menu.model with position := index } }
  else menu

/-! ## Navigation -/

/-- The `switch(menu_style)` of `menu_process_up`, on the model whose
`scroll_counter` is already cleared. -/
def menu_process_up_switch (menu_style : MenuStyle) (count : Nat) (model : MenuModel) :
    MenuModel :=
  match menu_style with
  | MenuStyle.MenuStyleList =>
    if model.position > 0 then
      let model := { model with position := size_t_sub model.position 1 }
      if model.vertical_offset ≠ 0 ∧ model.vertical_offset = model.position then
        { model with vertical_offset := size_t_sub model.vertical_offset 1 }
      else model
    else
      { model with position := size_t_sub count 1, vertical_offset := size_t_sub count 8 }
  | MenuStyle.MenuStyleWii =>
    let model :=
      if model.position % 2 ≠ 0 ∨ (model.position = size_t_sub count 1 ∧ count % 2 ≠ 0) then
        { model with position := size_t_sub model.position 1 }
      else
        { model with position := size_t_add model.position 1 }
    { model with vertical_offset := wii_vertical_offset model.position count }
  | _ => model

/-- The `switch(menu_style)` of `menu_process_down`. -/
def menu_process_down_switch (menu_style : MenuStyle) (count : Nat) (model : MenuModel) :
    MenuModel :=
  match menu_style with
  | MenuStyle.MenuStyleList =>
    if model.position < size_t_sub count 1 then
      let model := { model with position := size_t_add model.position 1 }
      if model.vertical_offset < size_t_sub count 8 ∧
          model.vertical_offset = size_t_sub model.position 7 then
        { model with vertical_offset := size_t_add model.vertical_offset 1 }
      else model
    else
      { model with position := 0, vertical_offset := 0 }
  | MenuStyle.MenuStyleWii =>
    let model :=
      if model.position % 2 ≠ 0 ∨ (model.position = size_t_sub count 1 ∧ count % 2 ≠ 0) then
        { model with position := size_t_sub model.position 1 }
      else
        { model with position := size_t_add model.position 1 }
    { model with vertical_offset := wii_vertical_offset model.position count }
  | _ => model

/-- The `switch(menu_style)` of `menu_process_left`. -/
def menu_process_left_switch (menu_style : MenuStyle) (count : Nat) (model : MenuModel) :
    MenuModel :=
  match menu_style with
  | MenuStyle.MenuStyleWii =>
    let model :=
      if model.position < 2 then
        if count % 2 ≠ 0 then
          { model with position := size_t_sub count 1 }
        else
          { model with position := size_t_add (size_t_sub count 2) (model.position % 2) }
      else
        { model with position := size_t_sub model.position 2 }
    { model with vertical_offset := wii_vertical_offset model.position count }
  | MenuStyle.MenuStyleDsi | MenuStyle.MenuStyleVertical =>
    if model.position > 0 then
      let model := { model with position := size_t_sub model.position 1 }
      if model.vertical_offset ≠ 0 ∧ model.vertical_offset = model.position then
        { model with vertical_offset := size_t_sub model.vertical_offset 1 }
      else model
    else
      { model with position := size_t_sub count 1, vertical_offset := size_t_sub count 8 }
  | _ => model

/-- The `switch(menu_style)` of `menu_process_right`. -/
def menu_process_right_switch (menu_style : MenuStyle) (count : Nat) (model : MenuModel) :
    MenuModel :=
  match menu_style with
  | MenuStyle.MenuStyleWii =>
    let model :=
      if count % 2 ≠ 0 then
        if model.position = size_t_sub count 1 then
          { model with position := 0 }
        else if model.position = size_t_sub count 2 then
          { model with position := size_t_sub count 1 }
        else
          { model with position := size_t_add model.position 2 }
      else
        let model := { model with position := size_t_add model.position 2 }
        if model.position ≥ count then
          { model with position := model.position % 2 }
        else model
    { model with vertical_offset := wii_vertical_offset model.position count }
  | MenuStyle.MenuStyleDsi | MenuStyle.MenuStyleVertical =>
    if model.position < size_t_sub count 1 then
      let model := { model with position := size_t_add model.position 1 }
      if model.vertical_offset < size_t_sub count 8 ∧
          model.vertical_offset = size_t_sub model.position 7 then
        { model with vertical_offset := size_t_add model.vertical_offset 1 }
      else model
    else
      { model with position := 0, vertical_offset := 0 }
  | _ => model

/-- The locked block shared in shape by the four directional functions: clear
`scroll_counter`, stop the animation of the item at the old position, run the
style switch, start the animation of the item at the new position. -/
def process_move (switch : Nat → MenuModel → MenuModel) (menu : Menu) : Menu :=
  let model := { menu.model with scroll_counter := 0 }
  let count := MenuItemArray_size model.items
  let stopped := stop_item_icon (MenuItemArray_get model.items model.position)
  let model := switch count model
  let started := start_item_icon (MenuItemArray_get model.items model.position)
  { model := model, trace := menu.trace ++ stopped ++ started }

/-- The function `menu_process_up`. -/
def menu_process_up (menu_style : MenuStyle) (menu : Menu) : Menu :=
  if menu_style = MenuStyle.MenuStyleDsi ∨ menu_style = MenuStyle.MenuStyleVertical then menu
  else process_move (menu_process_up_switch menu_style) menu

/-- The function `menu_process_down`. -/
def menu_process_down (menu_style : MenuStyle) (menu : Menu) : Menu :=
  if menu_style = MenuStyle.MenuStyleDsi ∨ menu_style = MenuStyle.MenuStyleVertical then menu
  else process_move (menu_process_down_switch menu_style) menu

/-- The function `menu_process_left`. -/
def menu_process_left (menu_style : MenuStyle) (menu : Menu) : Menu :=
  if menu_style = MenuStyle.MenuStyleList then menu
  else process_move (menu_process_left_switch menu_style) menu

/-- The function `menu_process_right`. -/
def menu_process_right (menu_style : MenuStyle) (menu : Menu) : Menu :=
  if menu_style = MenuStyle.MenuStyleList then menu
  else process_move (menu_process_right_switch menu_style) menu

/-- The function `menu_process_ok`: the item is fetched under the lock only
when `position` is in range, the callback runs after the lock is released. -/
def menu_process_ok (menu : Menu) : Menu :=
  let item : Option MenuItem :=
    if menu.model.position < MenuItemArray_size menu.model.items then
      MenuItemArray_get menu.model.items menu.model.position
    else none
  match item with
  | some it =>
    match it.callback with
    | some fn => { menu with trace := menu.trace ++ [Effect.callback fn it.callback_context it.index] }
    | none => menu
  | none => menu

/-- The four directional keys. -/
inductive NavKey where
  | Up
  | Down
  | Left
  | Right
  deriving DecidableEq, Repr

/-- One directional key press, dispatched as `menu_input_callback` does. -/
def navigate (menu_style : MenuStyle) (key : NavKey) (menu : Menu) : Menu :=
  match key with
  | NavKey.Up => menu_process_up menu_style menu
  | NavKey.Down => menu_process_down menu_style menu
  | NavKey.Left => menu_process_left menu_style menu
  | NavKey.Right => menu_process_right menu_style menu

/-! ## Timer, visibility and input -/

/-- The function `menu_scroll_timer_callback`: one tick of the scroll timer,
`model->scroll_counter++` on a `size_t`. -/
def menu_scroll_timer_callback (menu : Menu) : Menu :=
  { menu with model := { menu.model with scroll_counter := size_t_add menu.model.scroll_counter 1 } }

/-- The function `menu_enter`: start the animation of the selected item, clear
`scroll_counter`, start the scroll timer with its period of 333. -/
def menu_enter (menu : Menu) : Menu :=
  { model := { menu.model with scroll_counter := 0 },
    trace := menu.trace ++
      start_item_icon (MenuItemArray_get menu.model.items menu.model.position) ++
      [Effect.furi_timer_start 333] }

/-- The function `menu_exit`: stop the animation of the selected item and the
scroll timer. -/
def menu_exit (menu : Menu) : Menu :=
  { model := menu.model,
    trace := menu.trace ++
      stop_item_icon (MenuItemArray_get menu.model.items menu.model.position) ++
      [Effect.furi_timer_stop] }

/-- Modelled from the spec: the kind of an input event, declared in the input
service headers, which are not part of the sources at hand; `Other` stands for
every kind the menu does not name. -/
inductive InputType where
  | InputTypeShort
  | InputTypeRepeat
  | Other
  deriving DecidableEq, Repr

/-- Modelled from the spec: the key of an input event, declared in the input
service headers, which are not part of the sources at hand; `Other` stands for
every key the menu does not name. -/
inductive InputKey where
  | InputKeyUp
  | InputKeyDown
  | InputKeyLeft
  | InputKeyRight
  | InputKeyOk
  | Other
  deriving DecidableEq, Repr

/-- The fields of an `InputEvent` the menu reads. -/
structure InputEvent where
  type : InputType
  key : InputKey
  deriving DecidableEq, Repr

/-- The function `menu_input_callback`: the value returned (`consumed`) and the
menu after the call. -/
def menu_input_callback (menu_style : MenuStyle) (event : InputEvent) (menu : Menu) :
    Bool × Menu :=
  match event.type with
  | InputType.InputTypeShort =>
    match event.key with
    | InputKey.InputKeyUp => (true, menu_process_up menu_style menu)
    | InputKey.InputKeyDown => (true, menu_process_down menu_style menu)
    | InputKey.InputKeyLeft => (true, menu_process_left menu_style menu)
    | InputKey.InputKeyRight => (true, menu_process_right menu_style menu)
    | InputKey.InputKeyOk => (true, menu_process_ok menu)
    | InputKey.Other => (false, menu)
  | InputType.InputTypeRepeat =>
    match event.key with
    | InputKey.InputKeyUp => (true, menu_process_up menu_style menu)
    | InputKey.InputKeyDown => (true, menu_process_down menu_style menu)
    | InputKey.InputKeyLeft => (true, menu_process_left menu_style menu)
    | InputKey.InputKeyRight => (true, menu_process_right menu_style menu)
    | _ => (false, menu)
  | InputType.Other => (false, menu)

/-- The function `menu_scroll_counter`: the scroll offset handed to the text
drawing call of a row. -/
def menu_scroll_counter (model : MenuModel) (selected : Bool) : Nat :=
  if !selected then 0
  else
    let scroll_counter := model.scroll_counter
    if scroll_counter > 0 then size_t_sub scroll_counter 1 else scroll_counter

/-! ## Carousel renderer: slot indices -/

/-- The index computed in the loop of the carousel branch of `menu_draw_callback`,
`shift_position = (position + items_count + i) % items_count`, where the
`int8_t` loop variable `i` is converted to `size_t` for the sum. -/
def dsi_shift_position (position items_count : Nat) (i : Int) : Nat :=
  size_t_add (size_t_add position items_count) (int_to_size_t i) % items_count

/-- The item indices the carousel branch draws, for `i = -2, …, 2` in loop order. -/
def dsi_slots (position items_count : Nat) : List Nat :=
  [-2, -1, 0, 1, 2].map (dsi_shift_position position items_count)

/-! ## Keys by role -/

/-- The pairs of style and key that move to the previous item. -/
def is_previous (s : MenuStyle) (k : NavKey) : Prop :=
  (s = MenuStyle.MenuStyleList ∧ k = NavKey.Up) ∨
  ((s = MenuStyle.MenuStyleDsi ∨ s = MenuStyle.MenuStyleVertical) ∧ k = NavKey.Left)

instance (s : MenuStyle) (k : NavKey) : Decidable (is_previous s k) := by
  unfold is_previous
  infer_instance

/-- The pairs of style and key that move to the next item. -/
def is_next (s : MenuStyle) (k : NavKey) : Prop :=
  (s = MenuStyle.MenuStyleList ∧ k = NavKey.Down) ∨
  ((s = MenuStyle.MenuStyleDsi ∨ s = MenuStyle.MenuStyleVertical) ∧ k = NavKey.Right)

instance (s : MenuStyle) (k : NavKey) : Decidable (is_next s k) := by
  unfold is_next
  infer_instance

/-! ## Example stores -/

/-- A store of one item, built through the facade. -/
def single_item_menu : Menu :=
  menu_add_item (menu_pos_alloc 0) "Settings" none 1 (some 1) 0

/-- The store of the three-item scenario: external indices 10, 20, 30, added
in this order, initial position 0. -/
def three_item_menu : Menu :=
  menu_add_item
    (menu_add_item
      (menu_add_item (menu_pos_alloc 0) "Alpha" none 10 (some 100) 7)
      "Beta" none 20 (some 100) 7)
    "Gamma" none 30 (some 100) 7

/-- A store of five items at position 0, built through the facade. -/
def five_item_menu : Menu :=
  menu_add_item
    (menu_add_item
      (menu_add_item
        (menu_add_item
          (menu_add_item (menu_pos_alloc 0) "[NFC] Reader" none 1 (some 100) 0)
          "Sub-GHz" none 2 (some 100) 0)
        "Infrared" none 3 none 0)
      "GPIO" none 4 (some 100) 0)
    "Settings" none 5 (some 100) 0

/-! ## The spec's formulas -/

/-- The carousel Left rule in the spec's words, `(position - 1 + count) mod count`,
over the integers. -/
def spec_carousel_left (position count : Nat) : Int :=
  ((position : Int) - 1 + (count : Int)) % (count : Int)

/-- The carousel Right rule in the spec's words, `(position + 1) mod count`,
over the integers. -/
def spec_carousel_right (position count : Nat) : Int :=
  ((position : Int) + 1) % (count : Int)

/-- The carousel slot rule in the spec's words, `(position + count + i) mod count`,
over the integers. -/
def spec_dsi_slot (position count : Nat) (i : Int) : Int :=
  ((position : Int) + (count : Int) + i) % (count : Int)

/-- The clamp of the spec, `clamp(x, lo, hi)`: `x` limited to the range from `lo`
to `hi`, over the integers. -/
def spec_clamp (x lo hi : Int) : Int := min hi (max lo x)

/-- A store of ten items with position 9, built through the facade. -/
def ten_item_menu : Menu :=
  menu_set_selected_item
    ((fun m : Menu => menu_add_item m "Item" none 0 (some 100) 0)^[10] (menu_pos_alloc 0)) 9

/-! ## Predicates of the data model -/

/-- The invariant of `position`: below `count` on a non-empty store, at its
rest value 0 on an empty one. -/
def position_invariant (model : MenuModel) : Prop :=
  (0 < MenuItemArray_size model.items → model.position < MenuItemArray_size model.items) ∧
  (MenuItemArray_size model.items = 0 → model.position = 0)

instance (model : MenuModel) : Decidable (position_invariant model) := by
  unfold position_invariant
  infer_instance

/-- The pairs of style and key that the directional functions act on, the
others being left by the early `return`. -/
def is_meaningful (s : MenuStyle) (k : NavKey) : Prop :=
  match s with
  | MenuStyle.MenuStyleList => k = NavKey.Up ∨ k = NavKey.Down
  | MenuStyle.MenuStyleWii => True
  | MenuStyle.MenuStyleDsi => k = NavKey.Left ∨ k = NavKey.Right
  | MenuStyle.MenuStyleVertical => k = NavKey.Left ∨ k = NavKey.Right

instance (s : MenuStyle) (k : NavKey) : Decidable (is_meaningful s k) := by
  unfold is_meaningful
  cases s <;> infer_instance

/-- The three-item store after one tick of the scroll timer. -/
def ticked_three_item_menu : Menu := menu_scroll_timer_callback three_item_menu

/-! ## Renderer -/

/-- The `size_t` product `a * b`. -/
def size_t_mul (a b : Nat) : Nat := (a * b) % SIZE_T_MOD

/-- The fonts the renderer selects. -/
inductive Font where
  | FontPrimary
  | FontSecondary
  | FontBatteryPercent
  deriving DecidableEq, Repr

/-- The drawing colours the renderer selects. -/
inductive Color where
  | ColorWhite
  | ColorBlack
  deriving DecidableEq, Repr

/-- The text alignments the renderer uses. -/
inductive Align where
  | AlignCenter
  | AlignBottom
  deriving DecidableEq, Repr

/-- The canvas orientations the renderer selects. -/
inductive CanvasOrientation where
  | CanvasOrientationHorizontal
  | CanvasOrientationVertical
  deriving DecidableEq, Repr

/-- A call made on the canvas, with its arguments after the canvas itself. -/
inductive DrawCmd where
  | canvas_clear
  | canvas_set_font (font : Font)
  | canvas_set_color (color : Color)
  | canvas_set_orientation (orientation : CanvasOrientation)
  | canvas_draw_icon_animation (x y : Nat) (animation : IconAnimation)
  | canvas_draw_str (x y : Nat) (str : String)
  | canvas_draw_str_aligned (x y : Nat) (horizontal vertical : Align) (str : String)
  | canvas_draw_rframe (x y width height radius : Nat)
  | canvas_draw_line (x1 y1 x2 y2 : Nat)
  | canvas_draw_box (x y width height : Nat)
  | elements_frame (x y width height : Nat)
  | elements_scrollbar (pos total : Nat)
  | elements_scrollbar_horizontal (x y width pos total : Nat)
  | elements_slightly_rounded_box (x y width height : Nat)
  | elements_slightly_rounded_frame (x y width height : Nat)
  | elements_bold_rounded_frame (x y width height : Nat)
  | elements_scrollable_text_line_str (x y width : Nat) (string : String) (scroll : Nat)
      (ellipsis centered : Bool)
  | elements_scrollable_text_line (x y width : Nat) (string : String) (scroll : Nat)
      (ellipsis centered : Bool)
  deriving DecidableEq, Repr

/-- Modelled from the spec: `furi_string_start_with_str` of the string library,
which is not part of the sources at hand; whether the string begins with the
given text.  A string is taken as its sequence of characters. -/
def furi_string_start_with_str (s start : String) : Bool :=
  start.toList.isPrefixOf s.toList

/-- The first index, counted from `i` at the head of the list, at which the
pattern begins. -/
def search_from (pattern : List Char) : List Char → Nat → Option Nat
  | [], _ => none
  | c :: rest, i =>
    if pattern.isPrefixOf (c :: rest) then some i else search_from pattern rest (i + 1)

/-- Modelled from the spec: `furi_string_search_str` of the string library,
which is not part of the sources at hand; the index of the first occurrence of
the text at or after `start`, or `none` for `STRING_FAILURE`. -/
def furi_string_search_str (s needle : String) (start : Nat) : Option Nat :=
  search_from needle.toList (s.toList.drop start) start

/-- Modelled from the spec: `furi_string_right` of the string library, which is
not part of the sources at hand; the string without its first `index`
characters. -/
def furi_string_right (s : String) (index : Nat) : String :=
  String.mk (s.toList.drop index)

/-- The function `menu_short_name`: the value left in `name`. -/
def menu_short_name (item : MenuItem) : String :=
  let name := item.label
  if furi_string_start_with_str name "[" then
    match furi_string_search_str name "] " 1 with
    | some trim => furi_string_right name (trim + 2)
    | none => name
  else name

/-- The function `menu_centered_icon`. -/
def menu_centered_icon (item : MenuItem) (x y width height : Nat) : List DrawCmd :=
  match item.icon with
  | some a =>
    [DrawCmd.canvas_draw_icon_animation
      (size_t_add x (size_t_sub width a.icon.width / 2))
      (size_t_add y (size_t_sub height a.icon.height / 2)) a]
  | none => []

/-- A `for` loop of the renderer: the calls of its passes, one after the other;
`none` as soon as a pass reads an item out of range. -/
def draw_loop {α : Type} (body : α → Option (List DrawCmd)) : List α → Option (List DrawCmd)
  | [] => some []
  | i :: rest =>
    match body i with
    | none => none
    | some cmds =>
      match draw_loop body rest with
      | none => none
      | some more => some (cmds ++ more)

/-- The index of the list branch, `(position + items_count + i - 1) % items_count`. -/
def list_shift_position (position items_count i : Nat) : Nat :=
  size_t_sub (size_t_add (size_t_add position items_count) i) 1 % items_count

/-- One pass of the loop of the list branch. -/
def draw_list_row (model : MenuModel) (position items_count i : Nat) :
    Option (List DrawCmd) :=
  let shift_position := list_shift_position position items_count i
  match MenuItemArray_get model.items shift_position with
  | none => none
  | some item =>
    some ([DrawCmd.canvas_set_font (if i = 1 then Font.FontPrimary else Font.FontSecondary)] ++
      menu_centered_icon item 4 (3 + 22 * i) 14 14 ++
      [DrawCmd.elements_scrollable_text_line_str 22 (14 + 22 * i) 98 item.label
        (menu_scroll_counter model (i == 1)) false false])

/-- The window start of the grid-pair branch. -/
def wii_shift_position (position items_count : Nat) : Nat :=
  if items_count > 6 ∧ position ≥ 4 then
    if position ≥ size_t_add (size_t_sub items_count 2) (items_count % 2) then
      size_t_sub (size_t_sub position (position % 2)) 4
    else
      size_t_sub (size_t_sub position (position % 2)) 2
  else 0

/-- The outcome of the comparison `item->label == (char*)"..."` of the
grid-pair branch: whether the label pointer of the item is the address of the
given string literal of `menu.c`.  The model holds the text of a label and not
its address, so the outcome is an argument of the renderer. -/
abbrev LabelIsLiteral : Type := MenuItem → String → Bool

/-- The name the grid-pair branch shows: the short name, replaced for the
three labels whose pointer is that of the literal compared with. -/
def wii_name (label_is_literal : LabelIsLiteral) (item : MenuItem) : String :=
  let name := menu_short_name item
  let name := if label_is_literal item "Applications" then "Apps" else name
  let name := if label_is_literal item "125 kHz RFID" then "RFID" else name
  if label_is_literal item "Sub-GHz" then "SubGHz" else name

/-- The memory layout in which the label pointer of an item is the address of
a literal exactly when the two texts are equal (every label a literal, equal
literals merged). -/
def label_text_is : LabelIsLiteral := fun item literal => item.label == literal

/-- The memory layout in which no label pointer is the address of a literal of
`menu.c`. -/
def label_never_literal : LabelIsLiteral := fun _ _ => false

/-- One pass of the loop of the grid-pair branch. -/
def draw_wii_slot (label_is_literal : LabelIsLiteral) (model : MenuModel)
    (position items_count shift_position i : Nat) : Option (List DrawCmd) :=
  let item_i := size_t_add shift_position i
  if item_i ≥ items_count then some []
  else
    let x_off := (i / 2) * 43 + 1
    let y_off := (i % 2) * 32
    let selected : Bool := item_i == position
    let scroll_counter := menu_scroll_counter model selected
    match MenuItemArray_get model.items item_i with
    | none => none
    | some item =>
      some ((if selected then
          [DrawCmd.elements_slightly_rounded_box (0 + x_off) (0 + y_off) 40 30,
           DrawCmd.canvas_set_color Color.ColorWhite]
        else []) ++
        menu_centered_icon item x_off y_off 40 20 ++
        [DrawCmd.elements_scrollable_text_line (20 + x_off) (26 + y_off) 36
          (wii_name label_is_literal item) scroll_counter false true] ++
        (if selected then [DrawCmd.canvas_set_color Color.ColorBlack]
         else [DrawCmd.elements_frame (0 + x_off) (0 + y_off) 40 30]))

/-- One pass of the loop of the carousel branch, for the `int8_t` loop
variable `i`. -/
def draw_dsi_slot (model : MenuModel) (position items_count : Nat) (i : Int) :
    Option (List DrawCmd) :=
  let shift_position := dsi_shift_position position items_count i
  match MenuItemArray_get model.items shift_position with
  | none => none
  | some item =>
    let width := 24
    let height := 26
    let pos_x := 64
    let pos_y := 36
    if i = 0 then
      let width := size_t_add width 6
      let height := size_t_add height 4
      some ([DrawCmd.elements_bold_rounded_frame (size_t_sub pos_x (width / 2))
          (size_t_sub pos_y (height / 2)) width (size_t_add height 5),
        DrawCmd.canvas_set_font Font.FontBatteryPercent,
        DrawCmd.canvas_draw_str_aligned (size_t_sub pos_x 9)
          (size_t_add (size_t_add pos_y (height / 2)) 1) Align.AlignCenter Align.AlignBottom "S",
        DrawCmd.canvas_draw_str_aligned pos_x
          (size_t_add (size_t_add pos_y (height / 2)) 1) Align.AlignCenter Align.AlignBottom
          "TAR",
        DrawCmd.canvas_draw_str_aligned (size_t_add pos_x 9)
          (size_t_add (size_t_add pos_y (height / 2)) 1) Align.AlignCenter Align.AlignBottom "T",
        DrawCmd.canvas_draw_rframe 0 0 128 18 3,
        DrawCmd.canvas_draw_line 60 18 64 26,
        DrawCmd.canvas_draw_line 64 26 68 18,
        DrawCmd.canvas_set_color Color.ColorWhite,
        DrawCmd.canvas_draw_line 60 17 68 17,
        DrawCmd.canvas_draw_box 62 21 5 2,
        DrawCmd.canvas_set_color Color.ColorBlack,
        DrawCmd.canvas_set_font Font.FontPrimary,
        DrawCmd.elements_scrollable_text_line_str pos_x
          (size_t_sub (size_t_sub pos_y (height / 2)) 8) 126 item.label
          (menu_scroll_counter model true) false true] ++
        menu_centered_icon item (size_t_sub pos_x 7) (size_t_sub pos_y 7) 14 14)
    else
      let pos_x := size_t_add pos_x (size_t_mul (size_t_add width 6) (int_to_size_t i))
      let pos_y := size_t_add pos_y 2
      some ([DrawCmd.elements_slightly_rounded_frame (size_t_sub pos_x (width / 2))
          (size_t_sub pos_y (height / 2)) width height] ++
        menu_centered_icon item (size_t_sub pos_x 7) (size_t_sub pos_y 7) 14 14)

/-- One pass of the loop of the vertical branch. -/
def draw_vertical_row (model : MenuModel) (position items_count shift_position i : Nat) :
    Option (List DrawCmd) :=
  let item_i := size_t_add shift_position i
  if item_i ≥ items_count then some []
  else
    let y_off := size_t_mul 16 i
    let selected : Bool := item_i == position
    let scroll_counter := menu_scroll_counter model selected
    match MenuItemArray_get model.items item_i with
    | none => none
    | some item =>
      some ((if selected then
          [DrawCmd.elements_slightly_rounded_box 0 y_off 64 16,
           DrawCmd.canvas_set_color Color.ColorWhite]
        else []) ++
        menu_centered_icon item 0 y_off 16 16 ++
        [DrawCmd.elements_scrollable_text_line 17 (size_t_add y_off 12) 46
          (menu_short_name item) scroll_counter false false] ++
        (if selected then [DrawCmd.canvas_set_color Color.ColorBlack] else []))

/-- The function `menu_draw_callback`: the calls made on the canvas, in order;
`none` when an item is read out of range.  The style is the one read from
`CFW_SETTINGS()`; `label_is_literal` gives the outcome of the pointer
comparisons of the grid-pair branch. -/
def menu_draw_callback (label_is_literal : LabelIsLiteral) (menu_style : MenuStyle)
    (model : MenuModel) : Option (List DrawCmd) :=
  let position := model.position
  let items_count := MenuItemArray_size model.items
  if items_count ≠ 0 then
    match menu_style with
    | MenuStyle.MenuStyleList =>
      (draw_loop (draw_list_row model position items_count) [0, 1, 2]).map fun rows =>
        [DrawCmd.canvas_clear] ++ rows ++
          [DrawCmd.elements_frame 0 21 (128 - 5) 21,
           DrawCmd.elements_scrollbar position items_count]
    | MenuStyle.MenuStyleWii =>
      let shift_position := wii_shift_position position items_count
      (draw_loop (draw_wii_slot label_is_literal model position items_count shift_position)
        [0, 1, 2, 3, 4, 5]).map fun slots =>
        [DrawCmd.canvas_clear, DrawCmd.canvas_set_font Font.FontSecondary] ++ slots
    | MenuStyle.MenuStyleDsi =>
      (draw_loop (draw_dsi_slot model position items_count) [-2, -1, 0, 1, 2]).map fun slots =>
        [DrawCmd.canvas_clear] ++ slots ++
          [DrawCmd.elements_scrollbar_horizontal 0 64 128 position items_count]
    | MenuStyle.MenuStyleVertical =>
      let shift_position := model.vertical_offset
      (draw_loop (draw_vertical_row model position items_count shift_position)
        [0, 1, 2, 3, 4, 5, 6, 7]).map fun rows =>
        [DrawCmd.canvas_clear,
         DrawCmd.canvas_set_orientation CanvasOrientation.CanvasOrientationVertical,
         DrawCmd.canvas_set_font Font.FontSecondary] ++ rows ++
          [DrawCmd.canvas_set_orientation CanvasOrientation.CanvasOrientationHorizontal]
  else
    some [DrawCmd.canvas_clear, DrawCmd.canvas_draw_str 2 32 "Empty",
      DrawCmd.elements_scrollbar 0 0]

/-! ## Short names, in the spec's words -/

/-- The two-character sequence "] " stands at index `i` of the text. -/
def tag_end_at (text : List Char) (i : Nat) : Prop :=
  (text.drop i).take 2 = [']', ' ']

instance (text : List Char) (i : Nat) : Decidable (tag_end_at text i) := by
  unfold tag_end_at
  infer_instance

/-- A menu item with the given label and nothing else. -/
def labelled (label : String) : MenuItem :=
  { label := label, icon := none, index := 0, callback := none, callback_context := 0 }

/-! ## Sequences of moves -/

/-- A finite sequence of key presses, each under the style in force at that
moment, applied from left to right. -/
def run_moves (moves : List (MenuStyle × NavKey)) (menu : Menu) : Menu :=
  moves.foldl (fun m move => navigate move.1 move.2 m) menu

/-- The relation between `position`, `vertical_offset` and `count` that the
moves maintain on a store of at least eight items: the window of eight rows
from `vertical_offset` lies inside the store and holds the selected row, not
in its first row unless the window is at the start, and not in its last row
unless the window is at the end. -/
def window_invariant (model : MenuModel) : Prop :=
  model.position < MenuItemArray_size model.items ∧
  model.vertical_offset + 8 ≤ MenuItemArray_size model.items ∧
  model.vertical_offset ≤ model.position ∧
  model.position < model.vertical_offset + 8 ∧
  (0 < model.vertical_offset → model.vertical_offset < model.position) ∧
  (model.vertical_offset + 8 < MenuItemArray_size model.items →
    model.position < model.vertical_offset + 7)

instance (model : MenuModel) : Decidable (window_invariant model) := by
  unfold window_invariant
  infer_instance

/-- A store of ten items with position 0, built through the facade. -/
def ten_item_menu_at_start : Menu :=
  (fun m : Menu => menu_add_item m "Item" none 0 (some 100) 0)^[10] (menu_pos_alloc 0)

/-! ## What a list of canvas calls shows -/

/-- The scroll offset a call hands to a scrolling text line, for the two text
line calls. -/
def DrawCmd.scroll_offset : DrawCmd → Option Nat
  | DrawCmd.elements_scrollable_text_line_str _ _ _ _ scroll _ _ => some scroll
  | DrawCmd.elements_scrollable_text_line _ _ _ _ scroll _ _ => some scroll
  | _ => none

/-- The text a call hands to a scrolling text line, for the two text line
calls. -/
def DrawCmd.line_text : DrawCmd → Option String
  | DrawCmd.elements_scrollable_text_line_str _ _ _ text _ _ _ => some text
  | DrawCmd.elements_scrollable_text_line _ _ _ text _ _ _ => some text
  | _ => none

/-- The animation a call draws, for the icon animation call. -/
def DrawCmd.animation : DrawCmd → Option IconAnimation
  | DrawCmd.canvas_draw_icon_animation _ _ a => some a
  | _ => none

/-- The scroll offsets of the text lines among the calls, in order. -/
def text_scrolls (cmds : List DrawCmd) : List Nat := cmds.filterMap DrawCmd.scroll_offset

/-- The texts of the text lines among the calls, in order. -/
def drawn_texts (cmds : List DrawCmd) : List String := cmds.filterMap DrawCmd.line_text

/-- The animations drawn by the calls, in order. -/
def drawn_animations (cmds : List DrawCmd) : List IconAnimation :=
  cmds.filterMap DrawCmd.animation

/-- The three-item store after four ticks of the scroll timer. -/
def four_ticks_three_item_menu : Menu := menu_scroll_timer_callback^[4] three_item_menu

/-- The ten-item store, position 9, after four ticks of the scroll timer and
with the window offset 2 that navigation gives at that position. -/
def four_ticks_ten_item_model : MenuModel :=
  { (menu_scroll_timer_callback^[4] ten_item_menu).model with vertical_offset := 2 }

/-! # Theorems -/

/-! ## Basic facts about a move -/

theorem process_move_model (switch : Nat → MenuModel → MenuModel) (menu : Menu) :
    (process_move switch menu).model =
      switch (MenuItemArray_size menu.model.items) { menu.model with scroll_counter := 0 } := by
  simp [process_move]

theorem menu_process_up_switch_items (s : MenuStyle) (c : Nat) (m : MenuModel) :
    (menu_process_up_switch s c m).items = m.items := by
  cases s <;> simp only [menu_process_up_switch] <;> split_ifs <;> rfl

theorem menu_process_down_switch_items (s : MenuStyle) (c : Nat) (m : MenuModel) :
    (menu_process_down_switch s c m).items = m.items := by
  cases s <;> simp only [menu_process_down_switch] <;> split_ifs <;> rfl

theorem menu_process_left_switch_items (s : MenuStyle) (c : Nat) (m : MenuModel) :
    (menu_process_left_switch s c m).items = m.items := by
  cases s <;> simp only [menu_process_left_switch] <;> split_ifs <;> rfl

theorem menu_process_right_switch_items (s : MenuStyle) (c : Nat) (m : MenuModel) :
    (menu_process_right_switch s c m).items = m.items := by
  cases s <;> simp only [menu_process_right_switch] <;> split_ifs <;> rfl

/-- A move never changes the item store. -/
theorem navigate_items (s : MenuStyle) (k : NavKey) (menu : Menu) :
    (navigate s k menu).model.items = menu.model.items := by
  cases k <;> simp only [navigate, menu_process_up, menu_process_down, menu_process_left,
    menu_process_right] <;> split_ifs <;>
    simp [process_move_model, menu_process_up_switch_items, menu_process_down_switch_items,
      menu_process_left_switch_items, menu_process_right_switch_items]

/-- Range preservation of a single move, for every style and key apart from
Up and Down in grid-pair style on a one-item store. -/
theorem navigate_position_lt (s : MenuStyle) (k : NavKey) (menu : Menu)
    (hcount : 1 ≤ MenuItemArray_size menu.model.items)
    (hrep : MenuItemArray_size menu.model.items < SIZE_T_MOD)
    (hpos : menu.model.position < MenuItemArray_size menu.model.items)
    (hne : ¬ (s = MenuStyle.MenuStyleWii ∧ MenuItemArray_size menu.model.items = 1 ∧
      (k = NavKey.Up ∨ k = NavKey.Down))) :
    (navigate s k menu).model.position < MenuItemArray_size menu.model.items := by
  simp only [MenuItemArray_size, SIZE_T_MOD] at *
  cases k <;> cases s <;>
    simp [navigate, menu_process_up, menu_process_down, menu_process_left,
      menu_process_right, process_move_model, menu_process_up_switch,
      menu_process_down_switch, menu_process_left_switch, menu_process_right_switch,
      size_t_sub, size_t_add, SIZE_T_MOD, MenuItemArray_size] at * <;>
    (try split_ifs) <;> (try simp at *) <;> omega

/-! ## C1: the range of `position` after a move -/

/-- C1, at the input where the code leaves the range: in grid-pair style, on a
store of exactly one item with position 0, Up and Down each decrement
`position` below zero, so that it wraps to 4294967295 and `position < count`
no longer holds. -/
theorem wii_single_item_up_down_leave_range :
    MenuItemArray_size single_item_menu.model.items = 1 ∧
    single_item_menu.model.position = 0 ∧
    (navigate MenuStyle.MenuStyleWii NavKey.Up single_item_menu).model.position = 4294967295 ∧
    (navigate MenuStyle.MenuStyleWii NavKey.Down single_item_menu).model.position = 4294967295 ∧
    ¬ (navigate MenuStyle.MenuStyleWii NavKey.Up single_item_menu).model.position <
        MenuItemArray_size
          (navigate MenuStyle.MenuStyleWii NavKey.Up single_item_menu).model.items := by
  decide

/-! ## C2: moves on an empty store -/

/-- C2, at inputs where the code is not a no-op: on the empty store with
position 0, Up in list style sets `position` to 4294967295 and
`vertical_offset` to 4294967288, Down in list style sets `position` to 1, Left
in grid-pair style sets `position` to 4294967294, and Left and Right in
carousel style set `position` to 4294967295 and to 1. -/
theorem empty_store_moves_change_position :
    MenuItemArray_size (menu_pos_alloc 0).model.items = 0 ∧
    (navigate MenuStyle.MenuStyleList NavKey.Up (menu_pos_alloc 0)).model.position
      = 4294967295 ∧
    (navigate MenuStyle.MenuStyleList NavKey.Up (menu_pos_alloc 0)).model.vertical_offset
      = 4294967288 ∧
    (navigate MenuStyle.MenuStyleList NavKey.Down (menu_pos_alloc 0)).model.position = 1 ∧
    (navigate MenuStyle.MenuStyleWii NavKey.Up (menu_pos_alloc 0)).model.position = 1 ∧
    (navigate MenuStyle.MenuStyleWii NavKey.Left (menu_pos_alloc 0)).model.position
      = 4294967294 ∧
    (navigate MenuStyle.MenuStyleDsi NavKey.Left (menu_pos_alloc 0)).model.position
      = 4294967295 ∧
    (navigate MenuStyle.MenuStyleDsi NavKey.Right (menu_pos_alloc 0)).model.position = 1 ∧
    (navigate MenuStyle.MenuStyleVertical NavKey.Left (menu_pos_alloc 0)).model.vertical_offset
      = 4294967288 := by
  decide

/-! ## C3: `menu_set_selected_item` -/

/-- C3: `menu_set_selected_item menu index` stores `index` in `position` when
`index < count` and returns the menu unchanged when `index ≥ count` (so on
every empty store); in both cases the items, `vertical_offset`,
`scroll_counter` and the trace of external calls are the ones before the
call. -/
theorem menu_set_selected_item_contract (menu : Menu) (index : Nat) :
    (index < MenuItemArray_size menu.model.items →
      (menu_set_selected_item menu index).model.position = index) ∧
    (MenuItemArray_size menu.model.items ≤ index →
      menu_set_selected_item menu index = menu) ∧
    (menu_set_selected_item menu index).model.items = menu.model.items ∧
    (menu_set_selected_item menu index).model.vertical_offset = menu.model.vertical_offset ∧
    (menu_set_selected_item menu index).model.scroll_counter = menu.model.scroll_counter ∧
    (menu_set_selected_item menu index).trace = menu.trace := by
  unfold menu_set_selected_item
  by_cases h : index < MenuItemArray_size menu.model.items
  · simp [h]
  · simp [h, Nat.le_of_not_lt h]

/-- C3 at concrete inputs: index 2 on the three-item store is selected, index 3
on it and index 0 on the empty store change nothing. -/
theorem menu_set_selected_item_contract_witness :
    (menu_set_selected_item three_item_menu 2).model.position = 2 ∧
    menu_set_selected_item three_item_menu 3 = three_item_menu ∧
    menu_set_selected_item (menu_pos_alloc 0) 0 = menu_pos_alloc 0 :=
  ⟨(menu_set_selected_item_contract three_item_menu 2).1 (by decide),
   (menu_set_selected_item_contract three_item_menu 3).2.1 (by decide),
   (menu_set_selected_item_contract (menu_pos_alloc 0) 0).2.1 (by decide)⟩

/-! ## C4: activation -/

/-- C4: `menu_process_ok` never changes the model; it appends exactly the one
call `callback(callback_context, index)` of the item at `position` when
`position < count` and that item has a callback, and appends nothing when
`position ≥ count` or the item has no callback.  In list style on the store
with external indices 10, 20, 30 and position 0, two Down presses give
position 2 and Ok then reports 30; a third Down gives position 0 and Ok then
reports 10. -/
theorem menu_process_ok_contract :
    (∀ menu : Menu, (menu_process_ok menu).model = menu.model) ∧
    (∀ (menu : Menu) (item : MenuItem) (fn : Nat),
      menu.model.position < MenuItemArray_size menu.model.items →
      MenuItemArray_get menu.model.items menu.model.position = some item →
      item.callback = some fn →
      (menu_process_ok menu).trace =
        menu.trace ++ [Effect.callback fn item.callback_context item.index]) ∧
    (∀ (menu : Menu) (item : MenuItem),
      MenuItemArray_get menu.model.items menu.model.position = some item →
      item.callback = none → (menu_process_ok menu).trace = menu.trace) ∧
    (∀ menu : Menu, MenuItemArray_size menu.model.items ≤ menu.model.position →
      (menu_process_ok menu).trace = menu.trace) ∧
    (navigate MenuStyle.MenuStyleList NavKey.Down
      (navigate MenuStyle.MenuStyleList NavKey.Down three_item_menu)).model.position = 2 ∧
    (menu_process_ok (navigate MenuStyle.MenuStyleList NavKey.Down
      (navigate MenuStyle.MenuStyleList NavKey.Down three_item_menu))).trace =
      (navigate MenuStyle.MenuStyleList NavKey.Down
        (navigate MenuStyle.MenuStyleList NavKey.Down three_item_menu)).trace ++
        [Effect.callback 100 7 30] ∧
    (navigate MenuStyle.MenuStyleList NavKey.Down (navigate MenuStyle.MenuStyleList NavKey.Down
      (navigate MenuStyle.MenuStyleList NavKey.Down three_item_menu))).model.position = 0 ∧
    (menu_process_ok (navigate MenuStyle.MenuStyleList NavKey.Down
      (navigate MenuStyle.MenuStyleList NavKey.Down
        (navigate MenuStyle.MenuStyleList NavKey.Down three_item_menu)))).trace =
      (navigate MenuStyle.MenuStyleList NavKey.Down (navigate MenuStyle.MenuStyleList NavKey.Down
        (navigate MenuStyle.MenuStyleList NavKey.Down three_item_menu))).trace ++
        [Effect.callback 100 7 10] := by
  refine ⟨?_, ?_, ?_, ?_, by decide, by decide, by decide, by decide⟩
  · intro menu
    unfold menu_process_ok
    generalize (if menu.model.position < MenuItemArray_size menu.model.items then
      MenuItemArray_get menu.model.items menu.model.position else none) = item
    cases item with
    | none => rfl
    | some it => cases h : it.callback <;> simp [h]
  · intro menu item fn hlt hget hcb
    simp [menu_process_ok, hlt, hget, hcb]
  · intro menu item hget hcb
    unfold menu_process_ok
    split_ifs <;> simp [hget, hcb]
  · intro menu hle
    simp [menu_process_ok, Nat.not_lt.mpr hle]

/-- C4 on the three-item store at position 0: Ok makes the one call
`callback(7, 10)` of the first item. -/
theorem menu_process_ok_contract_witness :
    (menu_process_ok three_item_menu).trace =
      three_item_menu.trace ++ [Effect.callback 100 7 10] :=
  menu_process_ok_contract.2.1 three_item_menu
    { label := "Alpha", icon := some { icon := A_Plugins_14 }, index := 10,
      callback := some 100, callback_context := 7 }
    100 (by decide) (by decide) rfl

/-! ## Linear styles: one step back, one step forward -/

/-- Stepping a residue: the successor of `n` modulo `c` in terms of `n % c`. -/
theorem succ_mod_step (n c : Nat) (hc : 0 < c) :
    (n + 1) % c = if n % c = c - 1 then 0 else n % c + 1 := by
  have hr := Nat.mod_lt n hc
  rw [Nat.add_mod]
  split_ifs with h
  · rcases Nat.lt_or_ge 1 c with h1 | h1
    · have hs : c - 1 + 1 = c := by omega
      rw [Nat.mod_eq_of_lt h1, h, hs, Nat.mod_self]
    · have hone : c = 1 := by omega
      subst hone
      exact Nat.mod_one _
  · have h1 : 1 < c := by omega
    rw [Nat.mod_eq_of_lt h1]
    exact Nat.mod_eq_of_lt (by omega)

theorem previous_position (s : MenuStyle) (k : NavKey) (h : is_previous s k) (menu : Menu)
    (hrep : MenuItemArray_size menu.model.items < SIZE_T_MOD)
    (hpos : menu.model.position < MenuItemArray_size menu.model.items) :
    (navigate s k menu).model.position =
      if menu.model.position = 0 then MenuItemArray_size menu.model.items - 1
      else menu.model.position - 1 := by
  simp only [MenuItemArray_size, SIZE_T_MOD] at *
  rcases h with ⟨rfl, rfl⟩ | ⟨rfl | rfl, rfl⟩ <;>
    simp [navigate, menu_process_up, menu_process_left, process_move_model,
      menu_process_up_switch, menu_process_left_switch, size_t_sub, SIZE_T_MOD,
      MenuItemArray_size] <;>
    (try split_ifs) <;> (try simp at *) <;> omega

theorem next_position (s : MenuStyle) (k : NavKey) (h : is_next s k) (menu : Menu)
    (hrep : MenuItemArray_size menu.model.items < SIZE_T_MOD)
    (hpos : menu.model.position < MenuItemArray_size menu.model.items) :
    (navigate s k menu).model.position =
      if menu.model.position = MenuItemArray_size menu.model.items - 1 then 0
      else menu.model.position + 1 := by
  simp only [MenuItemArray_size, SIZE_T_MOD] at *
  rcases h with ⟨rfl, rfl⟩ | ⟨rfl | rfl, rfl⟩ <;>
    simp [navigate, menu_process_down, menu_process_right, process_move_model,
      menu_process_down_switch, menu_process_right_switch, size_t_sub, size_t_add, SIZE_T_MOD,
      MenuItemArray_size] <;>
    (try split_ifs) <;> (try simp at *) <;> omega

/-- Pressing a next key `n` times from position 0 leaves the store as it is and
selects `n % count`. -/
theorem iterate_next_position (s : MenuStyle) (k : NavKey) (h : is_next s k) (menu : Menu)
    (hcount : 1 ≤ MenuItemArray_size menu.model.items)
    (hrep : MenuItemArray_size menu.model.items < SIZE_T_MOD)
    (hzero : menu.model.position = 0) (n : Nat) :
    ((navigate s k)^[n] menu).model.items = menu.model.items ∧
    ((navigate s k)^[n] menu).model.position = n % MenuItemArray_size menu.model.items := by
  induction n with
  | zero => simp [hzero]
  | succ n ih =>
    obtain ⟨hitems, hp⟩ := ih
    rw [Function.iterate_succ_apply']
    have hlt : ((navigate s k)^[n] menu).model.position <
        MenuItemArray_size ((navigate s k)^[n] menu).model.items := by
      rw [hitems, hp]
      exact Nat.mod_lt n hcount
    refine ⟨by rw [navigate_items, hitems], ?_⟩
    rw [next_position s k h _ (by rw [hitems]; exact hrep) hlt, hitems, hp,
      succ_mod_step n _ hcount]

/-! ## C5: wraparound in list and vertical style -/

/-- C5: on a store with `count ≥ 1` items (`count` a `size_t` value) and
`position < count`, Up in list style and Left in vertical style select
`position - 1`, or `count - 1` from position 0; Down in list style and Right in
vertical style select `position + 1`, or 0 from position `count - 1`; and from
position 0, `n` presses of Down in list style, or of Right in vertical style,
select `n % count`. -/
theorem list_vertical_wraparound (menu : Menu)
    (hcount : 1 ≤ MenuItemArray_size menu.model.items)
    (hrep : MenuItemArray_size menu.model.items < SIZE_T_MOD)
    (hpos : menu.model.position < MenuItemArray_size menu.model.items) :
    (navigate MenuStyle.MenuStyleList NavKey.Up menu).model.position =
      (if menu.model.position = 0 then MenuItemArray_size menu.model.items - 1
       else menu.model.position - 1) ∧
    (navigate MenuStyle.MenuStyleVertical NavKey.Left menu).model.position =
      (if menu.model.position = 0 then MenuItemArray_size menu.model.items - 1
       else menu.model.position - 1) ∧
    (navigate MenuStyle.MenuStyleList NavKey.Down menu).model.position =
      (if menu.model.position = MenuItemArray_size menu.model.items - 1 then 0
       else menu.model.position + 1) ∧
    (navigate MenuStyle.MenuStyleVertical NavKey.Right menu).model.position =
      (if menu.model.position = MenuItemArray_size menu.model.items - 1 then 0
       else menu.model.position + 1) ∧
    (menu.model.position = 0 → ∀ n : Nat,
      ((navigate MenuStyle.MenuStyleList NavKey.Down)^[n] menu).model.position =
        n % MenuItemArray_size menu.model.items ∧
      ((navigate MenuStyle.MenuStyleVertical NavKey.Right)^[n] menu).model.position =
        n % MenuItemArray_size menu.model.items) := by
  refine ⟨previous_position _ _ (Or.inl ⟨rfl, rfl⟩) menu hrep hpos,
    previous_position _ _ (Or.inr ⟨Or.inr rfl, rfl⟩) menu hrep hpos,
    next_position _ _ (Or.inl ⟨rfl, rfl⟩) menu hrep hpos,
    next_position _ _ (Or.inr ⟨Or.inr rfl, rfl⟩) menu hrep hpos, ?_⟩
  intro hzero n
  exact ⟨(iterate_next_position _ _ (Or.inl ⟨rfl, rfl⟩) menu hcount hrep hzero n).2,
    (iterate_next_position _ _ (Or.inr ⟨Or.inr rfl, rfl⟩) menu hcount hrep hzero n).2⟩

/-- C5 on the three-item store at position 0: previous selects 2, next selects
1, and seven presses of next select `7 % 3`. -/
theorem list_vertical_wraparound_witness :
    (navigate MenuStyle.MenuStyleList NavKey.Up three_item_menu).model.position = 2 ∧
    (navigate MenuStyle.MenuStyleVertical NavKey.Right three_item_menu).model.position = 1 ∧
    ((navigate MenuStyle.MenuStyleList NavKey.Down)^[7] three_item_menu).model.position
      = 7 % 3 :=
  have h := list_vertical_wraparound three_item_menu (by decide) (by decide) (by decide)
  ⟨h.1, h.2.2.2.1, (h.2.2.2.2 rfl 7).1⟩

/-! ## C6: carousel Left and Right -/

theorem spec_carousel_left_eq (p c : Nat) (hpos : p < c) :
    spec_carousel_left p c = ((if p = 0 then c - 1 else p - 1 : Nat) : Int) := by
  unfold spec_carousel_left
  split_ifs with h
  · subst h
    rw [Int.emod_eq_of_lt (by omega) (by omega)]
    omega
  · rw [Int.add_emod_self, Int.emod_eq_of_lt (by omega) (by omega)]
    omega

theorem spec_carousel_right_eq (p c : Nat) (hpos : p < c) :
    spec_carousel_right p c = ((if p = c - 1 then 0 else p + 1 : Nat) : Int) := by
  unfold spec_carousel_right
  split_ifs with h
  · have hc : (p : Int) + 1 = (c : Int) := by omega
    rw [hc, Int.emod_self]
    rfl
  · rw [Int.emod_eq_of_lt (by omega) (by omega)]
    omega

/-- C6: in carousel style, on a store with `count ≥ 1` items (`count` a `size_t`
value) and `position < count`, Left selects `(position - 1 + count) mod count`
and Right selects `(position + 1) mod count`, both read over the integers, and
each of Left-then-Right and Right-then-Left returns to the original
position. -/
theorem carousel_left_right (menu : Menu)
    (hcount : 1 ≤ MenuItemArray_size menu.model.items)
    (hrep : MenuItemArray_size menu.model.items < SIZE_T_MOD)
    (hpos : menu.model.position < MenuItemArray_size menu.model.items) :
    ((navigate MenuStyle.MenuStyleDsi NavKey.Left menu).model.position : Int) =
      spec_carousel_left menu.model.position (MenuItemArray_size menu.model.items) ∧
    ((navigate MenuStyle.MenuStyleDsi NavKey.Right menu).model.position : Int) =
      spec_carousel_right menu.model.position (MenuItemArray_size menu.model.items) ∧
    (navigate MenuStyle.MenuStyleDsi NavKey.Right
      (navigate MenuStyle.MenuStyleDsi NavKey.Left menu)).model.position
      = menu.model.position ∧
    (navigate MenuStyle.MenuStyleDsi NavKey.Left
      (navigate MenuStyle.MenuStyleDsi NavKey.Right menu)).model.position
      = menu.model.position := by
  have hprev : is_previous MenuStyle.MenuStyleDsi NavKey.Left := Or.inr ⟨Or.inl rfl, rfl⟩
  have hnext : is_next MenuStyle.MenuStyleDsi NavKey.Right := Or.inr ⟨Or.inl rfl, rfl⟩
  have hl := previous_position _ _ hprev menu hrep hpos
  have hr := next_position _ _ hnext menu hrep hpos
  have hll := navigate_position_lt MenuStyle.MenuStyleDsi NavKey.Left menu hcount hrep hpos
    (by simp)
  have hrl := navigate_position_lt MenuStyle.MenuStyleDsi NavKey.Right menu hcount hrep hpos
    (by simp)
  have hil := navigate_items MenuStyle.MenuStyleDsi NavKey.Left menu
  have hir := navigate_items MenuStyle.MenuStyleDsi NavKey.Right menu
  refine ⟨?_, ?_, ?_, ?_⟩
  · rw [hl, spec_carousel_left_eq _ _ hpos]
  · rw [hr, spec_carousel_right_eq _ _ hpos]
  · rw [next_position _ _ hnext _ (by rw [hil]; exact hrep) (by rw [hil]; exact hll), hil, hl]
    split_ifs <;> omega
  · rw [previous_position _ _ hprev _ (by rw [hir]; exact hrep) (by rw [hir]; exact hrl),
      hir, hr]
    split_ifs <;> first | omega | exact False.elim (by assumption)

/-- C6 on the five-item store at position 0: Left selects 4, which is
`(0 - 1 + 5) mod 5`, and Right after it returns to 0. -/
theorem carousel_left_right_witness :
    (navigate MenuStyle.MenuStyleDsi NavKey.Left five_item_menu).model.position = 4 ∧
    spec_carousel_left 0 5 = 4 ∧
    (navigate MenuStyle.MenuStyleDsi NavKey.Right
      (navigate MenuStyle.MenuStyleDsi NavKey.Left five_item_menu)).model.position = 0 :=
  have h := carousel_left_right five_item_menu (by decide) (by decide) (by decide)
  ⟨by decide, by decide, h.2.2.1⟩

/-! ## The five carousel indices -/

/-- Two offsets between -2 and 2 with the same slot modulo `c ≥ 5` are equal. -/
theorem spec_dsi_slot_inj (p c : Nat) (i j : Int) (hc : 5 ≤ c) (hi : -2 ≤ i ∧ i ≤ 2)
    (hj : -2 ≤ j ∧ j ≤ 2) (h : spec_dsi_slot p c i = spec_dsi_slot p c j) : i = j := by
  unfold spec_dsi_slot at h
  rw [Int.emod_eq_emod_iff_emod_sub_eq_zero] at h
  have hdvd : (c : Int) ∣ (i - j) := by
    have hd := Int.dvd_of_emod_eq_zero h
    have he : (p : Int) + (c : Int) + i - ((p : Int) + (c : Int) + j) = i - j := by ring
    rwa [he] at hd
  have hz : i - j = 0 := by
    apply Int.eq_zero_of_abs_lt_dvd hdvd
    rw [abs_lt]
    constructor <;> omega
  omega

/-- The `size_t` sum of the carousel loop, before the reduction modulo
`items_count`, is the integer `position + items_count + i`. -/
theorem dsi_sum_eq (p c : Nat) (i : Int) (hlo : -2 ≤ i) (hhi : i ≤ 2) (hc : 2 ≤ c)
    (hrep : c ≤ INT_MAX) (hpos : p < c) :
    ((size_t_add (size_t_add p c) (int_to_size_t i) : Nat) : Int) = (p : Int) + (c : Int) + i := by
  simp only [size_t_add, int_to_size_t, SIZE_T_MOD, INT_MAX] at *
  omega

theorem dsi_shift_position_spec (p c : Nat) (i : Int) (hlo : -2 ≤ i) (hhi : i ≤ 2)
    (hcount : 1 ≤ c) (hrep : c ≤ INT_MAX) (hpos : p < c) :
    ((dsi_shift_position p c i : Nat) : Int) = spec_dsi_slot p c i := by
  unfold dsi_shift_position spec_dsi_slot
  rcases Nat.lt_or_ge c 2 with h | h
  · have hone : c = 1 := by omega
    subst hone
    simp [Nat.mod_one]
  · rw [Int.ofNat_emod, dsi_sum_eq p c i hlo hhi h hrep hpos]

/-- For `count ≥ 1` representable as an `int` and `position < count`, the five
indices computed for `i = -2, -1, 0, 1, 2` are, in this order, the integers
`(position + count + i) mod count`; the centre index is `position`; and for
`count ≥ 5` the five indices are pairwise distinct. -/
theorem dsi_slots_indices (position count : Nat) (hcount : 1 ≤ count) (hrep : count ≤ INT_MAX)
    (hpos : position < count) :
    (dsi_slots position count).map (fun n : Nat => (n : Int)) =
      [-2, -1, 0, 1, 2].map (spec_dsi_slot position count) ∧
    dsi_shift_position position count 0 = position ∧
    (5 ≤ count → (dsi_slots position count).Nodup) := by
  have hs : ∀ i : Int, -2 ≤ i → i ≤ 2 →
      ((dsi_shift_position position count i : Nat) : Int) = spec_dsi_slot position count i :=
    fun i hlo hhi => dsi_shift_position_spec position count i hlo hhi hcount hrep hpos
  refine ⟨?_, ?_, ?_⟩
  · simp only [dsi_slots, List.map_cons, List.map_nil]
    rw [hs (-2) (by omega) (by omega), hs (-1) (by omega) (by omega),
      hs 0 (by omega) (by omega), hs 1 (by omega) (by omega), hs 2 (by omega) (by omega)]
  · have h0 := hs 0 (by omega) (by omega)
    unfold spec_dsi_slot at h0
    rw [add_zero, Int.add_emod_self, Int.emod_eq_of_lt (by omega) (by omega)] at h0
    exact_mod_cast h0
  · intro h5
    unfold dsi_slots
    refine List.Nodup.map_on ?_ (by decide)
    intro i hi j hj hij
    have hi2 : -2 ≤ i ∧ i ≤ 2 := by
      simp only [List.mem_cons, List.mem_singleton, List.not_mem_nil, or_false] at hi
      omega
    have hj2 : -2 ≤ j ∧ j ≤ 2 := by
      simp only [List.mem_cons, List.mem_singleton, List.not_mem_nil, or_false] at hj
      omega
    apply spec_dsi_slot_inj position count i j h5 hi2 hj2
    rw [← hs i hi2.1 hi2.2, ← hs j hj2.1 hj2.2, hij]

/-- The indices for five items and position 4 are 2, 3, 4, 0, 1. -/
theorem dsi_slots_indices_witness :
    dsi_slots 4 5 = [2, 3, 4, 0, 1] ∧
    (dsi_slots 4 5).map (fun n : Nat => (n : Int)) = [-2, -1, 0, 1, 2].map (spec_dsi_slot 4 5) ∧
    (dsi_slots 4 5).Nodup :=
  have h := dsi_slots_indices 4 5 (by decide) (by decide) (by decide)
  ⟨by decide, h.1, h.2.2 (by decide)⟩

/-! ## Grid-pair style: positions after one move -/

theorem wii_left_position (menu : Menu)
    (hrep : MenuItemArray_size menu.model.items < SIZE_T_MOD)
    (hpos : menu.model.position < MenuItemArray_size menu.model.items) :
    (navigate MenuStyle.MenuStyleWii NavKey.Left menu).model.position =
      if menu.model.position < 2 then
        (if MenuItemArray_size menu.model.items % 2 = 1 then
          MenuItemArray_size menu.model.items - 1
         else MenuItemArray_size menu.model.items - 2 + menu.model.position)
      else menu.model.position - 2 := by
  simp only [MenuItemArray_size, SIZE_T_MOD] at *
  simp [navigate, menu_process_left, process_move_model, menu_process_left_switch, size_t_sub,
    size_t_add, SIZE_T_MOD, MenuItemArray_size]
  split_ifs <;> (try simp at *) <;> omega

theorem wii_right_position (menu : Menu)
    (hrep : MenuItemArray_size menu.model.items < SIZE_T_MOD)
    (hpos : menu.model.position < MenuItemArray_size menu.model.items) :
    (navigate MenuStyle.MenuStyleWii NavKey.Right menu).model.position =
      if MenuItemArray_size menu.model.items % 2 = 1 then
        (if menu.model.position + 1 = MenuItemArray_size menu.model.items then 0
         else if menu.model.position + 2 = MenuItemArray_size menu.model.items then
          MenuItemArray_size menu.model.items - 1
         else menu.model.position + 2)
      else
        (if MenuItemArray_size menu.model.items ≤ menu.model.position + 2 then
          menu.model.position % 2
         else menu.model.position + 2) := by
  simp only [MenuItemArray_size, SIZE_T_MOD] at *
  simp [navigate, menu_process_right, process_move_model, menu_process_right_switch,
    size_t_sub, size_t_add, SIZE_T_MOD, MenuItemArray_size]
  split_ifs <;> (try simp at *) <;> omega

theorem wii_up_position (menu : Menu)
    (hrep : MenuItemArray_size menu.model.items < SIZE_T_MOD)
    (hpos : menu.model.position < MenuItemArray_size menu.model.items)
    (hpaired : ¬ (MenuItemArray_size menu.model.items % 2 = 1 ∧
      menu.model.position = MenuItemArray_size menu.model.items - 1)) :
    (navigate MenuStyle.MenuStyleWii NavKey.Up menu).model.position =
      if menu.model.position % 2 = 0 then menu.model.position + 1
      else menu.model.position - 1 := by
  simp only [MenuItemArray_size, SIZE_T_MOD] at *
  simp [navigate, menu_process_up, process_move_model, menu_process_up_switch, size_t_sub,
    size_t_add, SIZE_T_MOD, MenuItemArray_size]
  split_ifs <;> (try simp at *) <;> omega

/-! ## C8: Left and Right in grid-pair style -/

/-- C8: in grid-pair style, on a store whose `count` is a `size_t` value, from
every `position < count`: when `count` is even, Left-then-Right and
Right-then-Left both return to `position`; when `count` is odd,
Left-then-Right returns to `position` exactly when `position ≠ 1`,
Right-then-Left returns to `position` exactly when `position ≠ count - 2`, and
a round trip that does not return needs `count ≥ 3`. -/
theorem wii_left_right_round_trip (menu : Menu)
    (hrep : MenuItemArray_size menu.model.items < SIZE_T_MOD)
    (hpos : menu.model.position < MenuItemArray_size menu.model.items) :
    (MenuItemArray_size menu.model.items % 2 = 0 →
      (navigate MenuStyle.MenuStyleWii NavKey.Right
        (navigate MenuStyle.MenuStyleWii NavKey.Left menu)).model.position
        = menu.model.position ∧
      (navigate MenuStyle.MenuStyleWii NavKey.Left
        (navigate MenuStyle.MenuStyleWii NavKey.Right menu)).model.position
        = menu.model.position) ∧
    (MenuItemArray_size menu.model.items % 2 = 1 →
      ((navigate MenuStyle.MenuStyleWii NavKey.Right
        (navigate MenuStyle.MenuStyleWii NavKey.Left menu)).model.position
        = menu.model.position ↔ menu.model.position ≠ 1) ∧
      ((navigate MenuStyle.MenuStyleWii NavKey.Left
        (navigate MenuStyle.MenuStyleWii NavKey.Right menu)).model.position
        = menu.model.position ↔
          menu.model.position + 2 ≠ MenuItemArray_size menu.model.items) ∧
      ((menu.model.position = 1 ∨
          menu.model.position + 2 = MenuItemArray_size menu.model.items) →
        3 ≤ MenuItemArray_size menu.model.items)) := by
  have hcount : 1 ≤ MenuItemArray_size menu.model.items := by omega
  have hl := wii_left_position menu hrep hpos
  have hr := wii_right_position menu hrep hpos
  have hil := navigate_items MenuStyle.MenuStyleWii NavKey.Left menu
  have hir := navigate_items MenuStyle.MenuStyleWii NavKey.Right menu
  have hll := navigate_position_lt MenuStyle.MenuStyleWii NavKey.Left menu hcount hrep hpos
    (by simp)
  have hrl := navigate_position_lt MenuStyle.MenuStyleWii NavKey.Right menu hcount hrep hpos
    (by simp)
  have hlr := wii_right_position (navigate MenuStyle.MenuStyleWii NavKey.Left menu)
    (by rw [hil]; exact hrep) (by rw [hil]; exact hll)
  have hrr := wii_left_position (navigate MenuStyle.MenuStyleWii NavKey.Right menu)
    (by rw [hir]; exact hrep) (by rw [hir]; exact hrl)
  rw [hil] at hlr
  rw [hir] at hrr
  rw [hlr, hrr, hl, hr]
  generalize MenuItemArray_size menu.model.items = c at *
  generalize menu.model.position = p at *
  clear hl hr hlr hrr hll hrl hil hir
  refine ⟨fun heven => ?_, fun hodd => ?_⟩
  · simp only [show ¬ c % 2 = 1 by omega, if_false]
    constructor <;> split_ifs <;> omega
  · simp only [hodd, if_true]
    refine ⟨⟨?_, ?_⟩, ⟨?_, ?_⟩, by omega⟩
    · intro h h1
      subst h1
      revert h
      split_ifs <;> first | omega | exact id
    · intro h1
      split_ifs <;> omega
    · intro h h2
      revert h
      split_ifs <;> omega
    · intro h2
      split_ifs <;> omega

/-- C8 on the five-item store: from position 0 both round trips return, from
position 1 Left-then-Right does not, and from position 3 Right-then-Left does
not. -/
theorem wii_left_right_round_trip_witness :
    (navigate MenuStyle.MenuStyleWii NavKey.Right
      (navigate MenuStyle.MenuStyleWii NavKey.Left five_item_menu)).model.position = 0 ∧
    (navigate MenuStyle.MenuStyleWii NavKey.Right (navigate MenuStyle.MenuStyleWii NavKey.Left
      (menu_set_selected_item five_item_menu 1))).model.position ≠ 1 ∧
    (navigate MenuStyle.MenuStyleWii NavKey.Left (navigate MenuStyle.MenuStyleWii NavKey.Right
      (menu_set_selected_item five_item_menu 3))).model.position ≠ 3 :=
  ⟨((wii_left_right_round_trip five_item_menu (by decide) (by decide)).2 (by decide)).1.2
      (by decide),
   fun h => (((wii_left_right_round_trip (menu_set_selected_item five_item_menu 1)
      (by decide) (by decide)).2 (by decide)).1.1 h) rfl,
   fun h => (((wii_left_right_round_trip (menu_set_selected_item five_item_menu 3)
      (by decide) (by decide)).2 (by decide)).2.1.1 h) rfl⟩

/-! ## C9: the viewport offset in grid-pair style -/

/-- The assignment of the grid-pair branches, read over the integers, for a
`count` representable as an `int` and a position that is in range or a store
of at most eight items. -/
theorem wii_vertical_offset_eq (p c : Nat) (hrep : c ≤ INT_MAX) (h : p < c ∨ c ≤ 8) :
    ((wii_vertical_offset p c : Nat) : Int) =
      min (max ((c : Int) - 8) 0) (max ((p : Int) - 4) 0) := by
  simp only [wii_vertical_offset, int_to_size_t, size_t_to_int, CLAMP, MAX, MIN, SIZE_T_MOD,
    INT_MAX] at *
  split_ifs <;> omega

/-- Every grid-pair move stores the offset computed from the new position. -/
theorem wii_navigate_vertical_offset (k : NavKey) (menu : Menu) :
    (navigate MenuStyle.MenuStyleWii k menu).model.vertical_offset =
      wii_vertical_offset (navigate MenuStyle.MenuStyleWii k menu).model.position
        (MenuItemArray_size menu.model.items) := by
  cases k <;>
    simp [navigate, menu_process_up, menu_process_down, menu_process_left, menu_process_right,
      process_move_model, menu_process_up_switch, menu_process_down_switch,
      menu_process_left_switch, menu_process_right_switch]

/-- C9: in grid-pair style, on a store with `count ≥ 1` items (`count`
representable as an `int`) and `position < count`, after each of Up, Down, Left
and Right the stored `vertical_offset` is `clamp(p - 4, 0, max(count - 8, 0))`,
that is `min(max(count - 8, 0), max(p - 4, 0))`, over the integers, where `p`
is the position the same move produced; the previous `vertical_offset` plays no
part. -/
theorem wii_vertical_offset_clamp (k : NavKey) (menu : Menu)
    (hcount : 1 ≤ MenuItemArray_size menu.model.items)
    (hrep : MenuItemArray_size menu.model.items ≤ INT_MAX)
    (hpos : menu.model.position < MenuItemArray_size menu.model.items) :
    ((navigate MenuStyle.MenuStyleWii k menu).model.vertical_offset : Int) =
      spec_clamp (((navigate MenuStyle.MenuStyleWii k menu).model.position : Int) - 4) 0
        (max ((MenuItemArray_size menu.model.items : Int) - 8) 0) ∧
    ((navigate MenuStyle.MenuStyleWii k menu).model.vertical_offset : Int) =
      min (max ((MenuItemArray_size menu.model.items : Int) - 8) 0)
        (max (((navigate MenuStyle.MenuStyleWii k menu).model.position : Int) - 4) 0) := by
  have hkey : ((navigate MenuStyle.MenuStyleWii k menu).model.vertical_offset : Int) =
      min (max ((MenuItemArray_size menu.model.items : Int) - 8) 0)
        (max (((navigate MenuStyle.MenuStyleWii k menu).model.position : Int) - 4) 0) := by
    rw [wii_navigate_vertical_offset]
    apply wii_vertical_offset_eq _ _ hrep
    by_cases h1 : MenuItemArray_size menu.model.items = 1
    · right
      omega
    · left
      apply navigate_position_lt _ _ _ hcount _ hpos
      · intro h
        exact h1 h.2.1
      · simp only [SIZE_T_MOD, INT_MAX] at *
        omega
  refine ⟨?_, hkey⟩
  rw [hkey]
  unfold spec_clamp
  rw [max_comm (0 : Int)]

/-- C9 on the one-item store, where Up wraps the position, on the five-item
store, and on the ten-item store, where Left from position 9 selects 7 and
stores the offset 2. -/
theorem wii_vertical_offset_clamp_witness :
    ((navigate MenuStyle.MenuStyleWii NavKey.Up single_item_menu).model.vertical_offset : Int)
      = spec_clamp
        (((navigate MenuStyle.MenuStyleWii NavKey.Up single_item_menu).model.position : Int) - 4)
        0 (max ((MenuItemArray_size single_item_menu.model.items : Int) - 8) 0) ∧
    ((navigate MenuStyle.MenuStyleWii NavKey.Left five_item_menu).model.vertical_offset : Int)
      = min (max ((MenuItemArray_size five_item_menu.model.items : Int) - 8) 0)
        (max (((navigate MenuStyle.MenuStyleWii NavKey.Left five_item_menu).model.position
          : Int) - 4) 0) ∧
    (navigate MenuStyle.MenuStyleWii NavKey.Left ten_item_menu).model.position = 7 ∧
    (navigate MenuStyle.MenuStyleWii NavKey.Left ten_item_menu).model.vertical_offset = 2 ∧
    ((navigate MenuStyle.MenuStyleWii NavKey.Left ten_item_menu).model.vertical_offset : Int)
      = min (max ((MenuItemArray_size ten_item_menu.model.items : Int) - 8) 0)
        (max (((navigate MenuStyle.MenuStyleWii NavKey.Left ten_item_menu).model.position
          : Int) - 4) 0) :=
  ⟨(wii_vertical_offset_clamp NavKey.Up single_item_menu (by decide) (by decide) (by decide)).1,
   (wii_vertical_offset_clamp NavKey.Left five_item_menu (by decide) (by decide) (by decide)).2,
   by decide, by decide,
   (wii_vertical_offset_clamp NavKey.Left ten_item_menu (by decide) (by decide) (by decide)).2⟩

/-! ## C10: Up and Down in grid-pair style -/

/-- C10: in grid-pair style Up and Down are the same transition on every state;
and on a store whose `count` is a `size_t` value, from every `position < count`
other than the unpaired last item (`count` odd and `position = count - 1`), the
key selects `position + 1` from an even position and `position - 1` from an odd
one, keeps `position / 2`, and pressed twice returns to `position`. -/
theorem wii_up_down_toggle :
    (∀ menu : Menu,
      menu_process_up MenuStyle.MenuStyleWii menu
        = menu_process_down MenuStyle.MenuStyleWii menu) ∧
    (∀ menu : Menu,
      MenuItemArray_size menu.model.items < SIZE_T_MOD →
      menu.model.position < MenuItemArray_size menu.model.items →
      ¬ (MenuItemArray_size menu.model.items % 2 = 1 ∧
        menu.model.position = MenuItemArray_size menu.model.items - 1) →
      (menu.model.position % 2 = 0 →
        (menu_process_up MenuStyle.MenuStyleWii menu).model.position
          = menu.model.position + 1) ∧
      (menu.model.position % 2 = 1 →
        (menu_process_up MenuStyle.MenuStyleWii menu).model.position
          = menu.model.position - 1) ∧
      (menu_process_up MenuStyle.MenuStyleWii menu).model.position / 2
        = menu.model.position / 2 ∧
      (menu_process_up MenuStyle.MenuStyleWii
        (menu_process_up MenuStyle.MenuStyleWii menu)).model.position
        = menu.model.position) := by
  refine ⟨fun menu => rfl, ?_⟩
  intro menu hrep hpos hpaired
  have hu := wii_up_position menu hrep hpos hpaired
  have hi := navigate_items MenuStyle.MenuStyleWii NavKey.Up menu
  have hlt : (navigate MenuStyle.MenuStyleWii NavKey.Up menu).model.position <
      MenuItemArray_size menu.model.items := by
    rw [hu]
    split_ifs <;> omega
  have huu := wii_up_position (navigate MenuStyle.MenuStyleWii NavKey.Up menu)
    (by rw [hi]; exact hrep) (by rw [hi]; exact hlt)
    (by
      rw [hi, hu]
      split_ifs <;> omega)
  simp only [navigate] at hu huu
  rw [huu, hu]
  refine ⟨fun h => ?_, fun h => ?_, ?_, ?_⟩
  · rw [if_pos h]
  · rw [if_neg (by omega)]
  · split_ifs <;> omega
  · split_ifs <;> omega

/-- C10 on the five-item store: from position 0 the key selects 1 and from
there 0 again, and Up and Down agree on it. -/
theorem wii_up_down_toggle_witness :
    menu_process_up MenuStyle.MenuStyleWii five_item_menu
      = menu_process_down MenuStyle.MenuStyleWii five_item_menu ∧
    (menu_process_up MenuStyle.MenuStyleWii five_item_menu).model.position = 0 + 1 ∧
    (menu_process_up MenuStyle.MenuStyleWii
      (menu_process_up MenuStyle.MenuStyleWii five_item_menu)).model.position = 0 :=
  ⟨wii_up_down_toggle.1 five_item_menu,
   (wii_up_down_toggle.2 five_item_menu (by decide) (by decide) (by decide)).1 (by decide),
   (wii_up_down_toggle.2 five_item_menu (by decide) (by decide) (by decide)).2.2.2⟩

/-! ## C11: the invariant of `position` under the facade -/

/-- C11, as stated, fails at creation: `menu_pos_alloc 5` is an empty store
whose position is 5, not the rest value 0. -/
theorem menu_pos_alloc_five_breaks_invariant :
    MenuItemArray_size (menu_pos_alloc 5).model.items = 0 ∧
    (menu_pos_alloc 5).model.position = 5 ∧
    ¬ position_invariant (menu_pos_alloc 5).model := by
  decide

/-- C11, amended: the state made by `menu_pos_alloc pos` satisfies the
invariant of `position` exactly when `pos = 0`; `menu_add_item` and
`menu_set_selected_item` preserve the invariant, and `menu_reset` establishes
it from every state. -/
theorem position_invariant_facade :
    (∀ pos : Nat, position_invariant (menu_pos_alloc pos).model ↔ pos = 0) ∧
    (∀ (menu : Menu) (label : String) (icon : Option Icon) (index : Nat)
      (callback : Option Nat) (context : Nat),
      position_invariant menu.model →
      position_invariant (menu_add_item menu label icon index callback context).model) ∧
    (∀ menu : Menu, position_invariant (menu_reset menu).model) ∧
    (∀ (menu : Menu) (index : Nat),
      position_invariant menu.model →
      position_invariant (menu_set_selected_item menu index).model) := by
  refine ⟨?_, ?_, ?_, ?_⟩
  · intro pos
    simp [position_invariant, menu_pos_alloc, MenuItemArray_size]
  · intro menu label icon index callback context h
    simp only [position_invariant, menu_add_item, MenuItemArray_size, List.length_append,
      List.length_singleton] at *
    omega
  · intro menu
    simp [position_invariant, menu_reset, MenuItemArray_size]
  · intro menu index h
    unfold menu_set_selected_item
    split_ifs with hlt
    · simp only [position_invariant, MenuItemArray_size] at *
      omega
    · exact h

/-- C11, amended, on concrete stores: the empty store at position 0 satisfies
the invariant, and so do the store after one `menu_add_item` and the
three-item store after selecting index 2. -/
theorem position_invariant_facade_witness :
    position_invariant (menu_pos_alloc 0).model ∧
    position_invariant (menu_add_item (menu_pos_alloc 0) "Settings" none 1 (some 1) 0).model ∧
    position_invariant (menu_set_selected_item three_item_menu 2).model :=
  ⟨(position_invariant_facade.1 0).2 rfl,
   position_invariant_facade.2.1 (menu_pos_alloc 0) "Settings" none 1 (some 1) 0 (by decide),
   position_invariant_facade.2.2.2 three_item_menu 2 (by decide)⟩

/-! ## C12: the scroll counter under moves, entering and ticks -/

/-- A move on a pair of style and key that the style acts on clears
`scroll_counter`. -/
theorem navigate_scroll_counter (s : MenuStyle) (k : NavKey) (menu : Menu)
    (h : is_meaningful s k) : (navigate s k menu).model.scroll_counter = 0 := by
  cases s <;> cases k <;>
    simp [is_meaningful] at h <;>
    simp [navigate, menu_process_up, menu_process_down, menu_process_left, menu_process_right,
      process_move_model, menu_process_up_switch, menu_process_down_switch,
      menu_process_left_switch, menu_process_right_switch] <;>
    (try split_ifs) <;> rfl

/-- A tick changes `scroll_counter` only. -/
theorem tick_frame (menu : Menu) :
    (menu_scroll_timer_callback menu).model.items = menu.model.items ∧
    (menu_scroll_timer_callback menu).model.position = menu.model.position ∧
    (menu_scroll_timer_callback menu).model.vertical_offset = menu.model.vertical_offset ∧
    (menu_scroll_timer_callback menu).trace = menu.trace := by
  simp [menu_scroll_timer_callback]

/-- After `n` ticks from a cleared counter, with `n` a `size_t` value, the
counter is `n` and nothing else has changed. -/
theorem iterate_tick (menu : Menu) (hzero : menu.model.scroll_counter = 0) (n : Nat)
    (hn : n < SIZE_T_MOD) :
    (menu_scroll_timer_callback^[n] menu).model.scroll_counter = n ∧
    (menu_scroll_timer_callback^[n] menu).model.items = menu.model.items ∧
    (menu_scroll_timer_callback^[n] menu).model.position = menu.model.position ∧
    (menu_scroll_timer_callback^[n] menu).model.vertical_offset = menu.model.vertical_offset ∧
    (menu_scroll_timer_callback^[n] menu).trace = menu.trace := by
  induction n with
  | zero => simp [hzero]
  | succ n ih =>
    obtain ⟨hs, hi, hp, hv, ht⟩ := ih (by omega)
    rw [Function.iterate_succ_apply']
    obtain ⟨fi, fp, fv, ft⟩ := tick_frame (menu_scroll_timer_callback^[n] menu)
    refine ⟨?_, by rw [fi, hi], by rw [fp, hp], by rw [fv, hv], by rw [ft, ht]⟩
    simp only [menu_scroll_timer_callback, size_t_add, hs, SIZE_T_MOD] at *
    omega

/-- C12: `scroll_counter` is 0 right after every move on a key the style acts
on (list: Up, Down; grid-pair: all four; carousel and vertical: Left, Right)
and right after `menu_enter`; a tick changes neither items, position nor
`vertical_offset` and adds 1 to a counter below the largest `size_t`; so `n`
ticks after such a move or after entering, with `n` a `size_t` value and no
move in between, leave `scroll_counter = n`. -/
theorem scroll_counter_counts_ticks :
    (∀ (s : MenuStyle) (k : NavKey) (menu : Menu), is_meaningful s k →
      (navigate s k menu).model.scroll_counter = 0) ∧
    (∀ menu : Menu, (menu_enter menu).model.scroll_counter = 0) ∧
    (∀ menu : Menu,
      (menu_scroll_timer_callback menu).model.items = menu.model.items ∧
      (menu_scroll_timer_callback menu).model.position = menu.model.position ∧
      (menu_scroll_timer_callback menu).model.vertical_offset = menu.model.vertical_offset ∧
      (menu.model.scroll_counter + 1 < SIZE_T_MOD →
        (menu_scroll_timer_callback menu).model.scroll_counter
          = menu.model.scroll_counter + 1)) ∧
    (∀ (s : MenuStyle) (k : NavKey) (menu : Menu) (n : Nat), is_meaningful s k →
      n < SIZE_T_MOD →
      (menu_scroll_timer_callback^[n] (navigate s k menu)).model.scroll_counter = n) ∧
    (∀ (menu : Menu) (n : Nat), n < SIZE_T_MOD →
      (menu_scroll_timer_callback^[n] (menu_enter menu)).model.scroll_counter = n) := by
  refine ⟨navigate_scroll_counter, fun menu => rfl, ?_, ?_, ?_⟩
  · intro menu
    obtain ⟨fi, fp, fv, _⟩ := tick_frame menu
    refine ⟨fi, fp, fv, ?_⟩
    intro h
    simp only [menu_scroll_timer_callback, size_t_add, SIZE_T_MOD] at *
    omega
  · intro s k menu n h hn
    exact (iterate_tick _ (navigate_scroll_counter s k menu h) n hn).1
  · intro menu n hn
    exact (iterate_tick _ rfl n hn).1

/-- C12 on the three-item store, ticked once beforehand: Down in list style
clears the counter and four ticks later it is 4; entering clears it and two
ticks later it is 2. -/
theorem scroll_counter_counts_ticks_witness :
    ticked_three_item_menu.model.scroll_counter = 1 ∧
    (navigate MenuStyle.MenuStyleList NavKey.Down ticked_three_item_menu).model.scroll_counter
      = 0 ∧
    (menu_scroll_timer_callback^[4]
      (navigate MenuStyle.MenuStyleList NavKey.Down ticked_three_item_menu)).model.scroll_counter
      = 4 ∧
    (menu_scroll_timer_callback^[2] (menu_enter ticked_three_item_menu)).model.scroll_counter
      = 2 :=
  ⟨by decide,
   scroll_counter_counts_ticks.1 MenuStyle.MenuStyleList NavKey.Down ticked_three_item_menu
     (by decide),
   scroll_counter_counts_ticks.2.2.2.1 MenuStyle.MenuStyleList NavKey.Down
     ticked_three_item_menu 4 (by decide) (by decide),
   scroll_counter_counts_ticks.2.2.2.2 ticked_three_item_menu 2 (by decide)⟩

/-! ## C13: the scroll counter under a change of selection -/

/-- C13, as stated, fails for the facade: on the three-item store with
`scroll_counter = 1`, `menu_set_selected_item` with index 2 moves the
selection from 0 to 2 and leaves `scroll_counter = 1`, and `menu_reset` then
moves it from 2 to 0 and leaves `scroll_counter = 1`. -/
theorem facade_selection_change_keeps_scroll_counter :
    ticked_three_item_menu.model.position = 0 ∧
    (menu_set_selected_item ticked_three_item_menu 2).model.position = 2 ∧
    (menu_set_selected_item ticked_three_item_menu 2).model.scroll_counter = 1 ∧
    (menu_reset (menu_set_selected_item ticked_three_item_menu 2)).model.position = 0 ∧
    (menu_reset (menu_set_selected_item ticked_three_item_menu 2)).model.scroll_counter
      = 1 := by
  decide

/-- C13, amended: every navigation move that changes `position` leaves
`scroll_counter = 0`, while `menu_set_selected_item` and `menu_reset` leave
`scroll_counter` as it was, whether or not they change `position`. -/
theorem scroll_counter_on_selection_change :
    (∀ (s : MenuStyle) (k : NavKey) (menu : Menu),
      (navigate s k menu).model.position ≠ menu.model.position →
      (navigate s k menu).model.scroll_counter = 0) ∧
    (∀ (menu : Menu) (index : Nat),
      (menu_set_selected_item menu index).model.scroll_counter
        = menu.model.scroll_counter) ∧
    (∀ menu : Menu, (menu_reset menu).model.scroll_counter = menu.model.scroll_counter) := by
  refine ⟨?_, ?_, fun menu => rfl⟩
  · intro s k menu hne
    by_cases h : is_meaningful s k
    · exact navigate_scroll_counter s k menu h
    · exfalso
      apply hne
      cases s <;> cases k <;> simp [is_meaningful] at h <;>
        simp [navigate, menu_process_up, menu_process_down, menu_process_left,
          menu_process_right]
  · intro menu index
    unfold menu_set_selected_item
    split_ifs <;> rfl

/-- C13, amended, on the ticked three-item store: Down in list style changes
the position and clears the counter. -/
theorem scroll_counter_on_selection_change_witness :
    (navigate MenuStyle.MenuStyleList NavKey.Down ticked_three_item_menu).model.position = 1 ∧
    (navigate MenuStyle.MenuStyleList NavKey.Down ticked_three_item_menu).model.scroll_counter
      = 0 :=
  ⟨by decide,
   scroll_counter_on_selection_change.1 MenuStyle.MenuStyleList NavKey.Down
     ticked_three_item_menu (by decide)⟩

/-! ## The helper `menu_scroll_counter` -/

/-- For a `scroll_counter` that is a `size_t` value, `menu_scroll_counter`
yields `max(scroll_counter - 1, 0)`, over the integers, for the selected row,
hence 0 for the counters 0 and 1 and `scroll_counter - 1` from 2 on, and
yields 0 for every other row; being a function of the model it changes
nothing. -/
theorem menu_scroll_counter_spec (model : MenuModel)
    (hrep : model.scroll_counter < SIZE_T_MOD) :
    ((menu_scroll_counter model true : Nat) : Int)
      = max ((model.scroll_counter : Int) - 1) 0 ∧
    (model.scroll_counter ≤ 1 → menu_scroll_counter model true = 0) ∧
    (2 ≤ model.scroll_counter →
      menu_scroll_counter model true = model.scroll_counter - 1) ∧
    menu_scroll_counter model false = 0 := by
  simp only [menu_scroll_counter, size_t_sub, SIZE_T_MOD, Bool.not_true, Bool.not_false,
    Bool.false_eq_true, if_false, if_true] at *
  refine ⟨?_, ?_, ?_, trivial⟩
  · split_ifs <;> omega
  · intro h
    split_ifs <;> omega
  · intro h
    split_ifs <;> omega

/-- The helper on the ticked three-item store and after four ticks: the offsets
of the selected row are 0 and 3. -/
theorem menu_scroll_counter_spec_witness :
    menu_scroll_counter ticked_three_item_menu.model true = 0 ∧
    ((menu_scroll_counter (menu_scroll_timer_callback^[4] three_item_menu).model true : Nat)
      : Int) = max (((menu_scroll_timer_callback^[4] three_item_menu).model.scroll_counter
        : Int) - 1) 0 ∧
    menu_scroll_counter (menu_scroll_timer_callback^[4] three_item_menu).model true = 3 :=
  ⟨(menu_scroll_counter_spec ticked_three_item_menu.model (by decide)).2.1 (by decide),
   (menu_scroll_counter_spec (menu_scroll_timer_callback^[4] three_item_menu).model
     (by decide)).1,
   by decide⟩

/-! ## C15: `menu_reset` -/

/-- The calls of the reset loop over items that all own an animation: stop,
then free, per item, in store order. -/
theorem reset_effects_of_animations (items : List MenuItem) (anims : List IconAnimation)
    (h : items.map (fun it => it.icon) = anims.map some) :
    (items.map reset_item_effects).flatten =
      (anims.map (fun a => [Effect.icon_animation_stop a, Effect.icon_animation_free a])).flatten := by
  induction items generalizing anims with
  | nil =>
    cases anims with
    | nil => rfl
    | cons a rest => simp at h
  | cons it tail ih =>
    cases anims with
    | nil => simp at h
    | cons a rest =>
      simp only [List.map_cons, List.cons.injEq] at h
      obtain ⟨hic, htail⟩ := h
      simp only [List.map_cons, List.flatten_cons, ih rest htail, reset_item_effects, hic]

/-- C15: from every state `menu_reset` leaves `count = 0` and `position = 0`
and keeps `vertical_offset` and `scroll_counter`; when the items own the
animations `anims`, in store order, the calls it makes are exactly
stop-then-free of each of them, once, in this order; on an empty store it
makes no call and yields the empty store with position 0; and a second
`menu_reset` changes nothing. -/
theorem menu_reset_contract :
    (∀ menu : Menu,
      MenuItemArray_size (menu_reset menu).model.items = 0 ∧
      (menu_reset menu).model.position = 0 ∧
      (menu_reset menu).model.vertical_offset = menu.model.vertical_offset ∧
      (menu_reset menu).model.scroll_counter = menu.model.scroll_counter) ∧
    (∀ (menu : Menu) (anims : List IconAnimation),
      menu.model.items.map (fun it => it.icon) = anims.map some →
      (menu_reset menu).trace = menu.trace ++
        (anims.map
          (fun a => [Effect.icon_animation_stop a, Effect.icon_animation_free a])).flatten) ∧
    (∀ menu : Menu, MenuItemArray_size menu.model.items = 0 →
      (menu_reset menu).trace = menu.trace ∧
      (menu_reset menu).model = { menu.model with position := 0 }) ∧
    (∀ menu : Menu, menu_reset (menu_reset menu) = menu_reset menu) := by
  refine ⟨fun menu => ⟨rfl, rfl, rfl, rfl⟩, ?_, ?_, ?_⟩
  · intro menu anims h
    simp only [menu_reset, reset_effects_of_animations _ _ h]
  · intro menu h
    have hnil : menu.model.items = [] := List.length_eq_zero.mp h
    simp [menu_reset, hnil]
  · intro menu
    simp [menu_reset]

/-- C15 on the three-item store, whose items own three animations of the
default icon: the reset stops and frees them one after the other. -/
theorem menu_reset_contract_witness :
    (menu_reset three_item_menu).trace = three_item_menu.trace ++
      [Effect.icon_animation_stop { icon := A_Plugins_14 },
       Effect.icon_animation_free { icon := A_Plugins_14 },
       Effect.icon_animation_stop { icon := A_Plugins_14 },
       Effect.icon_animation_free { icon := A_Plugins_14 },
       Effect.icon_animation_stop { icon := A_Plugins_14 },
       Effect.icon_animation_free { icon := A_Plugins_14 }] ∧
    (menu_reset (menu_pos_alloc 0)).trace = (menu_pos_alloc 0).trace :=
  ⟨menu_reset_contract.2.1 three_item_menu
     [{ icon := A_Plugins_14 }, { icon := A_Plugins_14 }, { icon := A_Plugins_14 }]
     (by decide),
   (menu_reset_contract.2.2.1 (menu_pos_alloc 0) (by decide)).1⟩

/-! ## C16: `menu_add_item` -/

/-- C16: `menu_add_item` appends one item to the store: the items are the
former ones, in their order, followed by the new item; `count` grows by 1; the
new item carries the given label, index, callback and context and owns an
animation of the caller's icon, or of the default icon `A_Plugins_14` when the
icon is null; `position`, `vertical_offset` and `scroll_counter` are
unchanged.  No condition on the label or the index is involved. -/
theorem menu_add_item_contract (menu : Menu) (label : String) (icon : Option Icon)
    (index : Nat) (callback : Option Nat) (context : Nat) :
    (menu_add_item menu label icon index callback context).model.items =
      menu.model.items ++
        [{ label := label,
           icon := some { icon := icon.getD A_Plugins_14 },
           index := index, callback := callback, callback_context := context }] ∧
    MenuItemArray_size (menu_add_item menu label icon index callback context).model.items =
      MenuItemArray_size menu.model.items + 1 ∧
    (∀ i : Nat, i < MenuItemArray_size menu.model.items →
      MenuItemArray_get (menu_add_item menu label icon index callback context).model.items i =
        MenuItemArray_get menu.model.items i) ∧
    MenuItemArray_get (menu_add_item menu label icon index callback context).model.items
        (MenuItemArray_size menu.model.items) =
      some { label := label,
             icon := some { icon := icon.getD A_Plugins_14 },
             index := index, callback := callback, callback_context := context } ∧
    (menu_add_item menu label icon index callback context).model.position
      = menu.model.position ∧
    (menu_add_item menu label icon index callback context).model.vertical_offset
      = menu.model.vertical_offset ∧
    (menu_add_item menu label icon index callback context).model.scroll_counter
      = menu.model.scroll_counter ∧
    (menu_add_item menu label icon index callback context).trace = menu.trace ++
      [Effect.icon_animation_alloc (icon.getD A_Plugins_14),
       Effect.view_tie_icon_animation { icon := icon.getD A_Plugins_14 }] := by
  have hsrc : (match icon with
      | some ic => ic
      | none => A_Plugins_14) = icon.getD A_Plugins_14 := by
    cases icon <;> rfl
  refine ⟨?_, ?_, ?_, ?_, rfl, rfl, rfl, ?_⟩
  · simp only [menu_add_item, hsrc]
  · simp [menu_add_item, MenuItemArray_size]
  · intro i hi
    simp only [menu_add_item, MenuItemArray_get, MenuItemArray_size] at *
    rw [List.get?_eq_getElem?, List.get?_eq_getElem?, List.getElem?_append_left hi]
  · simp only [menu_add_item, MenuItemArray_get, MenuItemArray_size, hsrc]
    rw [List.get?_eq_getElem?, List.getElem?_append_right (le_refl _)]
    simp
  · simp only [menu_add_item, hsrc]

/-- C16 on the three-item store: adding once more the label and index of its
first item gives a fourth item with them, and the first item stays. -/
theorem menu_add_item_contract_witness :
    MenuItemArray_size (menu_add_item three_item_menu "Alpha" none 10 none 0).model.items
      = MenuItemArray_size three_item_menu.model.items + 1 ∧
    MenuItemArray_get (menu_add_item three_item_menu "Alpha" none 10 none 0).model.items 0
      = MenuItemArray_get three_item_menu.model.items 0 ∧
    (menu_add_item three_item_menu "Alpha" none 10 none 0).model.position
      = three_item_menu.model.position :=
  have h := menu_add_item_contract three_item_menu "Alpha" none 10 none 0
  ⟨h.2.1, h.2.2.1 0 (by decide), h.2.2.2.2.1⟩

/-! ## C17: the input handler -/

/-- C17, as stated, fails for a repeated Ok: in every style the handler returns
`false` on the event of kind Repeat with key Ok, here on the three-item
store. -/
theorem repeat_ok_is_not_consumed :
    (menu_input_callback MenuStyle.MenuStyleList
      { type := InputType.InputTypeRepeat, key := InputKey.InputKeyOk } three_item_menu).1
      = false ∧
    (menu_input_callback MenuStyle.MenuStyleWii
      { type := InputType.InputTypeRepeat, key := InputKey.InputKeyOk } three_item_menu).1
      = false ∧
    (menu_input_callback MenuStyle.MenuStyleDsi
      { type := InputType.InputTypeRepeat, key := InputKey.InputKeyOk } three_item_menu).1
      = false ∧
    (menu_input_callback MenuStyle.MenuStyleVertical
      { type := InputType.InputTypeRepeat, key := InputKey.InputKeyOk } three_item_menu).1
      = false := by
  decide

/-- C17, amended: `menu_input_callback` returns `true` exactly when the kind is
Short and the key is one of Up, Down, Left, Right, Ok, or the kind is Repeat
and the key is one of Up, Down, Left, Right; whenever it returns `false` the
menu, model and calls, is unchanged; and a Short Ok returns `true` whatever the
selected item, so also without a callback, in which case no call is made. -/
theorem menu_input_callback_contract :
    (∀ (s : MenuStyle) (event : InputEvent) (menu : Menu),
      (menu_input_callback s event menu).1 = true ↔
        (event.type = InputType.InputTypeShort ∧ event.key ≠ InputKey.Other) ∨
        (event.type = InputType.InputTypeRepeat ∧ event.key ≠ InputKey.Other ∧
          event.key ≠ InputKey.InputKeyOk)) ∧
    (∀ (s : MenuStyle) (event : InputEvent) (menu : Menu),
      (menu_input_callback s event menu).1 = false →
      (menu_input_callback s event menu).2 = menu) ∧
    (∀ (s : MenuStyle) (menu : Menu),
      (menu_input_callback s
        { type := InputType.InputTypeShort, key := InputKey.InputKeyOk } menu).1 = true) ∧
    (∀ (s : MenuStyle) (menu : Menu) (item : MenuItem),
      MenuItemArray_get menu.model.items menu.model.position = some item →
      item.callback = none →
      (menu_input_callback s
        { type := InputType.InputTypeShort, key := InputKey.InputKeyOk } menu).2 = menu) := by
  refine ⟨?_, ?_, fun s menu => rfl, ?_⟩
  · intro s event menu
    obtain ⟨t, k⟩ := event
    cases t <;> cases k <;> simp [menu_input_callback]
  · intro s event menu
    obtain ⟨t, k⟩ := event
    cases t <;> cases k <;> simp [menu_input_callback]
  · intro s menu item hget hcb
    simp only [menu_input_callback, menu_process_ok]
    split_ifs <;> simp [hget, hcb]

/-- C17, amended, on the five-item store with its third item, which has no
callback, selected: a Short Ok is consumed and changes nothing, and an event of
another kind is not consumed. -/
theorem menu_input_callback_contract_witness :
    (menu_input_callback MenuStyle.MenuStyleDsi
      { type := InputType.InputTypeShort, key := InputKey.InputKeyOk }
      (menu_set_selected_item five_item_menu 2)).1 = true ∧
    (menu_input_callback MenuStyle.MenuStyleDsi
      { type := InputType.InputTypeShort, key := InputKey.InputKeyOk }
      (menu_set_selected_item five_item_menu 2)).2 = menu_set_selected_item five_item_menu 2 ∧
    (menu_input_callback MenuStyle.MenuStyleDsi
      { type := InputType.Other, key := InputKey.InputKeyUp } five_item_menu).2
      = five_item_menu :=
  ⟨menu_input_callback_contract.2.2.1 MenuStyle.MenuStyleDsi
     (menu_set_selected_item five_item_menu 2),
   menu_input_callback_contract.2.2.2 MenuStyle.MenuStyleDsi
     (menu_set_selected_item five_item_menu 2)
     { label := "Infrared", icon := some { icon := A_Plugins_14 }, index := 3,
       callback := none, callback_context := 0 } (by decide) rfl,
   menu_input_callback_contract.2.1 MenuStyle.MenuStyleDsi
     { type := InputType.Other, key := InputKey.InputKeyUp } five_item_menu (by decide)⟩

/-! ## C18: the renderer reads no item out of range -/

/-- An index below the count has an item. -/
theorem MenuItemArray_get_of_lt (items : List MenuItem) (i : Nat)
    (h : i < MenuItemArray_size items) : ∃ item, MenuItemArray_get items i = some item := by
  refine ⟨items[i], ?_⟩
  unfold MenuItemArray_get
  rw [List.get?_eq_getElem?]
  exact List.getElem?_eq_getElem h

/-- A loop whose passes all succeed succeeds. -/
theorem draw_loop_isSome {α : Type} (body : α → Option (List DrawCmd)) (l : List α)
    (h : ∀ i ∈ l, (body i).isSome = true) : (draw_loop body l).isSome = true := by
  induction l with
  | nil => rfl
  | cons a rest ih =>
    have ha := h a (List.mem_cons_self a rest)
    have hr := ih (fun i hi => h i (List.mem_cons_of_mem a hi))
    obtain ⟨cmds, hc⟩ := Option.isSome_iff_exists.mp ha
    obtain ⟨more, hm⟩ := Option.isSome_iff_exists.mp hr
    simp [draw_loop, hc, hm]

theorem list_shift_position_lt (p c i : Nat) (hc : 0 < c) : list_shift_position p c i < c :=
  Nat.mod_lt _ hc

theorem dsi_shift_position_lt (p c : Nat) (i : Int) (hc : 0 < c) :
    dsi_shift_position p c i < c :=
  Nat.mod_lt _ hc

theorem draw_list_row_isSome (model : MenuModel) (p i : Nat)
    (hc : 0 < MenuItemArray_size model.items) :
    (draw_list_row model p (MenuItemArray_size model.items) i).isSome = true := by
  obtain ⟨item, hitem⟩ := MenuItemArray_get_of_lt model.items _
    (list_shift_position_lt p (MenuItemArray_size model.items) i hc)
  simp [draw_list_row, hitem]

theorem draw_dsi_slot_isSome (model : MenuModel) (p : Nat) (i : Int)
    (hc : 0 < MenuItemArray_size model.items) :
    (draw_dsi_slot model p (MenuItemArray_size model.items) i).isSome = true := by
  obtain ⟨item, hitem⟩ := MenuItemArray_get_of_lt model.items _
    (dsi_shift_position_lt p (MenuItemArray_size model.items) i hc)
  simp only [draw_dsi_slot, hitem]
  split_ifs <;> rfl

theorem draw_wii_slot_isSome (f : LabelIsLiteral) (model : MenuModel) (p s i : Nat) :
    (draw_wii_slot f model p (MenuItemArray_size model.items) s i).isSome = true := by
  unfold draw_wii_slot
  by_cases h : size_t_add s i ≥ MenuItemArray_size model.items
  · simp [h]
  · obtain ⟨item, hitem⟩ := MenuItemArray_get_of_lt model.items _ (Nat.lt_of_not_ge h)
    simp [h, hitem]

theorem draw_vertical_row_isSome (model : MenuModel) (p s i : Nat) :
    (draw_vertical_row model p (MenuItemArray_size model.items) s i).isSome = true := by
  unfold draw_vertical_row
  by_cases h : size_t_add s i ≥ MenuItemArray_size model.items
  · simp [h]
  · obtain ⟨item, hitem⟩ := MenuItemArray_get_of_lt model.items _ (Nat.lt_of_not_ge h)
    simp [h, hitem]

/-- C18: on an empty store, in every style and whatever the position, the
offset and the counter, `menu_draw_callback` makes, after clearing the canvas,
only the two calls drawing the text "Empty" and the scrollbar with position 0
and total 0; on every state and in every style it reads no item out of range:
the list and carousel indices are residues modulo a non-zero `count`, and a
grid-pair or vertical pass whose index is not below `count` draws nothing and
reads nothing. -/
theorem menu_draw_callback_safe :
    (∀ (f : LabelIsLiteral) (s : MenuStyle) (model : MenuModel),
      MenuItemArray_size model.items = 0 →
      menu_draw_callback f s model =
        some [DrawCmd.canvas_clear, DrawCmd.canvas_draw_str 2 32 "Empty",
          DrawCmd.elements_scrollbar 0 0]) ∧
    (∀ (f : LabelIsLiteral) (s : MenuStyle) (model : MenuModel),
      (menu_draw_callback f s model).isSome = true) ∧
    (∀ (p c i : Nat), 0 < c → list_shift_position p c i < c) ∧
    (∀ (p c : Nat) (i : Int), 0 < c → dsi_shift_position p c i < c) ∧
    (∀ (f : LabelIsLiteral) (model : MenuModel) (p c s i : Nat), size_t_add s i ≥ c →
      draw_wii_slot f model p c s i = some [] ∧ draw_vertical_row model p c s i = some []) := by
  refine ⟨?_, ?_, list_shift_position_lt, dsi_shift_position_lt, ?_⟩
  · intro f s model h
    simp [menu_draw_callback, h]
  · intro f s model
    by_cases h : MenuItemArray_size model.items = 0
    · simp [menu_draw_callback, h]
    · have hc : 0 < MenuItemArray_size model.items := Nat.pos_of_ne_zero h
      cases s <;> simp only [menu_draw_callback, h, ne_eq, not_false_eq_true, if_true,
        Option.isSome_map']
      · exact draw_loop_isSome _ _ (fun i _ => draw_list_row_isSome model _ i hc)
      · exact draw_loop_isSome _ _ (fun i _ => draw_wii_slot_isSome f model _ _ i)
      · exact draw_loop_isSome _ _ (fun i _ => draw_dsi_slot_isSome model _ i hc)
      · exact draw_loop_isSome _ _ (fun i _ => draw_vertical_row_isSome model _ _ i)
  · intro f model p c s i h
    simp [draw_wii_slot, draw_vertical_row, h]

/-- C18 on concrete stores: the empty store with position 3 draws the
placeholder in vertical style, a pass of the grid-pair loop beyond the end of
the five-item store draws nothing, and the list index of the row above
position 0 of five items is 4. -/
theorem menu_draw_callback_safe_witness :
    menu_draw_callback label_text_is MenuStyle.MenuStyleVertical (menu_pos_alloc 3).model =
      some [DrawCmd.canvas_clear, DrawCmd.canvas_draw_str 2 32 "Empty",
        DrawCmd.elements_scrollbar 0 0] ∧
    draw_wii_slot label_text_is five_item_menu.model 0 5 0 5 = some [] ∧
    list_shift_position 0 5 0 < 5 :=
  ⟨menu_draw_callback_safe.1 label_text_is MenuStyle.MenuStyleVertical (menu_pos_alloc 3).model
     (by decide),
   (menu_draw_callback_safe.2.2.2.2 label_text_is five_item_menu.model 0 5 0 5 (by decide)).1,
   menu_draw_callback_safe.2.2.1 0 5 0 (by decide)⟩

/-! ## The grid-pair window start -/

/-- The window start is even and the selected position lies in the six slots
from it. -/
theorem wii_shift_position_bounds (p c : Nat) (hrep : c < SIZE_T_MOD) (hpos : p < c) :
    wii_shift_position p c % 2 = 0 ∧ wii_shift_position p c ≤ p ∧
      p < wii_shift_position p c + 6 := by
  simp only [wii_shift_position, size_t_add, size_t_sub, SIZE_T_MOD] at *
  split_ifs <;> omega

/-- For a `count` that is a `size_t` value and `position < count`, the window
start `s` of the grid-pair branch is even and
`s ≤ position < s + 6`; every index of the same column pair as `position` lies
in the same range; the selected item is the item of one of the six passes
`i < 6` of the loop, with `i % 2 = position % 2`, the row of that pass; and its
pair partner, when it is below `count`, is the item of one of the six passes
too. -/
theorem wii_window_arith (p c : Nat) (hrep : c < SIZE_T_MOD) (hpos : p < c) :
    wii_shift_position p c % 2 = 0 ∧
    wii_shift_position p c ≤ p ∧
    p < wii_shift_position p c + 6 ∧
    (∀ q : Nat, q / 2 = p / 2 →
      wii_shift_position p c ≤ q ∧ q < wii_shift_position p c + 6) ∧
    (∃ i : Nat, i < 6 ∧ size_t_add (wii_shift_position p c) i = p ∧ i % 2 = p % 2) ∧
    (∀ q : Nat, q / 2 = p / 2 → q < c →
      ∃ i : Nat, i < 6 ∧ size_t_add (wii_shift_position p c) i = q) := by
  obtain ⟨heven, hle, hlt⟩ := wii_shift_position_bounds p c hrep hpos
  generalize wii_shift_position p c = s at *
  simp only [size_t_add, SIZE_T_MOD] at *
  refine ⟨heven, hle, hlt, ?_, ?_, ?_⟩
  · intro q hq
    omega
  · exact ⟨p - s, by omega, by omega, by omega⟩
  · intro q hq hqc
    exact ⟨q - s, by omega, by omega⟩

/-- For ten items and position 9 the window starts at 4, and the selected item
is the item of pass 5, in row 1. -/
theorem wii_window_arith_witness :
    wii_shift_position 9 10 = 4 ∧
    wii_shift_position 9 10 % 2 = 0 ∧
    wii_shift_position 9 10 ≤ 9 ∧ 9 < wii_shift_position 9 10 + 6 ∧
    size_t_add (wii_shift_position 9 10) 5 = 9 :=
  have h := wii_window_arith 9 10 (by decide) (by decide)
  ⟨by decide, h.1, h.2.1, h.2.2.1, by decide⟩

/-! ## C20: which renderers read `vertical_offset` -/

/-- The list, grid-pair and carousel renderings do not depend on
`vertical_offset`. -/
theorem menu_draw_callback_vertical_offset (f : LabelIsLiteral) (s : MenuStyle)
    (hs : s ≠ MenuStyle.MenuStyleVertical) (model : MenuModel) (v : Nat) :
    menu_draw_callback f s { model with vertical_offset := v } = menu_draw_callback f s model := by
  cases s
  · rfl
  · rfl
  · rfl
  · exact absurd rfl hs

/-- The vertical rendering involves no pointer comparison. -/
theorem menu_draw_callback_vertical_layout (f g : LabelIsLiteral) (model : MenuModel) :
    menu_draw_callback f MenuStyle.MenuStyleVertical model
      = menu_draw_callback g MenuStyle.MenuStyleVertical model := rfl

/-- Two models that differ at most in `vertical_offset`. -/
theorem eq_with_vertical_offset (m1 m2 : MenuModel) (hi : m1.items = m2.items)
    (hp : m1.position = m2.position) (hc : m1.scroll_counter = m2.scroll_counter) :
    m2 = { m1 with vertical_offset := m2.vertical_offset } := by
  cases m1
  cases m2
  simp at *
  exact ⟨hi.symm, hp.symm, hc.symm⟩

/-- C20, as stated, fails for the grid-pair renderer: whatever the outcome of
its pointer comparisons, there are no two model states with the same items,
position and `scroll_counter` whose grid-pair window starts or grid-pair
renderings differ. -/
theorem no_wii_rendering_depends_on_vertical_offset :
    ¬ ∃ (f : LabelIsLiteral) (m1 m2 : MenuModel),
      m1.items = m2.items ∧ m1.position = m2.position ∧
      m1.scroll_counter = m2.scroll_counter ∧
      (wii_shift_position m1.position (MenuItemArray_size m1.items)
          ≠ wii_shift_position m2.position (MenuItemArray_size m2.items) ∨
        menu_draw_callback f MenuStyle.MenuStyleWii m1
          ≠ menu_draw_callback f MenuStyle.MenuStyleWii m2) := by
  rintro ⟨f, m1, m2, hi, hp, hc, hne⟩
  rcases hne with hne | hne
  · apply hne
    rw [hi, hp]
  · apply hne
    rw [eq_with_vertical_offset m1 m2 hi hp hc]
    exact (menu_draw_callback_vertical_offset f _ (by decide) m1 _).symm

/-- C20, amended: for two model states that differ only in `vertical_offset`
the list rendering is identical and the grid-pair rendering is identical, the
grid-pair window start being computed from the position and the count; the
vertical renderer does consume `vertical_offset`: there are two such states
whose vertical renderings differ. -/
theorem vertical_offset_readers :
    (∀ (f : LabelIsLiteral) (m1 m2 : MenuModel),
      m1.items = m2.items → m1.position = m2.position →
      m1.scroll_counter = m2.scroll_counter →
      menu_draw_callback f MenuStyle.MenuStyleList m1
        = menu_draw_callback f MenuStyle.MenuStyleList m2 ∧
      menu_draw_callback f MenuStyle.MenuStyleWii m1
        = menu_draw_callback f MenuStyle.MenuStyleWii m2) ∧
    (∃ m1 m2 : MenuModel,
      m1.items = m2.items ∧ m1.position = m2.position ∧
      m1.scroll_counter = m2.scroll_counter ∧
      ∀ f : LabelIsLiteral,
        menu_draw_callback f MenuStyle.MenuStyleVertical m1
          ≠ menu_draw_callback f MenuStyle.MenuStyleVertical m2) := by
  constructor
  · intro f m1 m2 hi hp hc
    rw [eq_with_vertical_offset m1 m2 hi hp hc]
    exact ⟨(menu_draw_callback_vertical_offset f _ (by decide) m1 _).symm,
      (menu_draw_callback_vertical_offset f _ (by decide) m1 _).symm⟩
  · refine ⟨ten_item_menu.model, { ten_item_menu.model with vertical_offset := 2 },
      rfl, rfl, rfl, ?_⟩
    intro f
    rw [menu_draw_callback_vertical_layout f label_never_literal,
      menu_draw_callback_vertical_layout f label_never_literal]
    decide

/-- C20, amended, on the ten-item store: the list and grid-pair renderings are
the same with offset 0 and with offset 2. -/
theorem vertical_offset_readers_witness :
    menu_draw_callback label_text_is MenuStyle.MenuStyleList ten_item_menu.model
      = menu_draw_callback label_text_is MenuStyle.MenuStyleList
          { ten_item_menu.model with vertical_offset := 2 } ∧
    menu_draw_callback label_text_is MenuStyle.MenuStyleWii ten_item_menu.model
      = menu_draw_callback label_text_is MenuStyle.MenuStyleWii
          { ten_item_menu.model with vertical_offset := 2 } :=
  vertical_offset_readers.1 label_text_is ten_item_menu.model
    { ten_item_menu.model with vertical_offset := 2 } rfl rfl rfl

/-! ## C21: the short name -/

/-- A two-character pattern begins a text exactly when it is the text's first
two characters. -/
theorem isPrefixOf_pair (a b : Char) (text : List Char) :
    [a, b].isPrefixOf text = true ↔ text.take 2 = [a, b] := by
  cases text with
  | nil => simp [List.isPrefixOf]
  | cons c rest =>
    cases rest with
    | nil => simp [List.isPrefixOf]
    | cons d more =>
      simp [List.isPrefixOf]
      constructor
      · rintro ⟨h1, h2⟩
        exact ⟨h1.symm, h2.symm⟩
      · rintro ⟨h1, h2⟩
        exact ⟨h1.symm, h2.symm⟩

/-- A successful search returns the start plus the least offset at which the
pattern begins. -/
theorem search_from_some (pattern text : List Char) (i k : Nat)
    (h : search_from pattern text i = some k) :
    ∃ n, k = i + n ∧ pattern.isPrefixOf (text.drop n) = true ∧
      ∀ j, j < n → pattern.isPrefixOf (text.drop j) = false := by
  induction text generalizing i with
  | nil => simp [search_from] at h
  | cons c rest ih =>
    unfold search_from at h
    by_cases hp : pattern.isPrefixOf (c :: rest) = true
    · rw [if_pos hp] at h
      refine ⟨0, ?_, hp, ?_⟩
      · simpa using h.symm
      · intro j hj
        omega
    · rw [if_neg hp] at h
      obtain ⟨n, hk, hn, hleast⟩ := ih (i + 1) h
      refine ⟨n + 1, by omega, by simpa using hn, ?_⟩
      intro j hj
      cases j with
      | zero => exact Bool.eq_false_iff.mpr hp
      | succ j => simpa using hleast j (by omega)

/-- A failed search means the pattern begins at no offset inside the text. -/
theorem search_from_none (pattern text : List Char) (i : Nat)
    (h : search_from pattern text i = none) :
    ∀ j, j < text.length → pattern.isPrefixOf (text.drop j) = false := by
  induction text generalizing i with
  | nil =>
    intro j hj
    simp at hj
  | cons c rest ih =>
    unfold search_from at h
    by_cases hp : pattern.isPrefixOf (c :: rest) = true
    · rw [if_pos hp] at h
      simp at h
    · rw [if_neg hp] at h
      intro j hj
      cases j with
      | zero => exact Bool.eq_false_iff.mpr hp
      | succ j =>
        simp only [List.length_cons] at hj
        simpa using ih (i + 1) h j (by omega)

/-- The function `menu_short_name` with the string library calls spelt out on
the characters of the label. -/
theorem menu_short_name_unfold (item : MenuItem) :
    menu_short_name item =
      if ['['].isPrefixOf item.label.toList = true then
        match search_from [']', ' '] (item.label.toList.drop 1) 1 with
        | some trim => String.mk (item.label.toList.drop (trim + 2))
        | none => item.label
      else item.label := rfl

theorem head_bracket (text : List Char) :
    ['['].isPrefixOf text = true ↔ text.head? = some '[' := by
  cases text with
  | nil => simp [List.isPrefixOf]
  | cons c rest =>
    simp [List.isPrefixOf]
    exact eq_comm

/-- The pattern "] " begins at offset `n` of the text without its first
character exactly when it stands at index `n + 1` of the text. -/
theorem tag_end_at_succ (text : List Char) (n : Nat) :
    [']', ' '].isPrefixOf ((text.drop 1).drop n) = true ↔ tag_end_at text (n + 1) := by
  rw [isPrefixOf_pair, List.drop_drop, Nat.add_comm]
  rfl

/-- An index at which "] " stands is inside the text. -/
theorem tag_end_at_lt (text : List Char) (i : Nat) (h : tag_end_at text i) :
    i < text.length := by
  by_contra hge
  unfold tag_end_at at h
  rw [List.drop_of_length_le (by omega)] at h
  simp at h

/-- The search of `menu_short_name` finds the first index from 1 on at which
"] " stands. -/
theorem search_tag_end (text : List Char) (i : Nat) (hi : 1 ≤ i) (hat : tag_end_at text i)
    (hfirst : ∀ j, 1 ≤ j → j < i → ¬ tag_end_at text j) :
    search_from [']', ' '] (text.drop 1) 1 = some i := by
  have hlen := tag_end_at_lt text i hat
  cases hs : search_from [']', ' '] (text.drop 1) 1 with
  | none =>
    exfalso
    have hnone := search_from_none _ _ _ hs (i - 1) (by simp only [List.length_drop]; omega)
    have hyes := (tag_end_at_succ text (i - 1)).mpr (by rwa [Nat.sub_add_cancel hi])
    rw [hyes] at hnone
    exact Bool.noConfusion hnone
  | some k =>
    obtain ⟨n, hk, hn, hleast⟩ := search_from_some _ _ _ _ hs
    have hat2 : tag_end_at text (n + 1) := (tag_end_at_succ text n).mp hn
    have h1 : ¬ n + 1 < i := fun hlt => hfirst (n + 1) (by omega) hlt hat2
    have h2 : ¬ i < n + 1 := by
      intro hlt
      have hno := hleast (i - 1) (by omega)
      have hyes := (tag_end_at_succ text (i - 1)).mpr (by rwa [Nat.sub_add_cancel hi])
      rw [hyes] at hno
      exact Bool.noConfusion hno
    have : k = i := by omega
    rw [this]

/-- C21: for a label that starts with '[' and in which "] " stands at an index
`i ≥ 1` and at no index from 1 up to `i`, `menu_short_name` yields the label
without its first `i + 2` characters, that is without everything up to and
including that "] "; for a label that does not start with '[', and for one
that starts with '[' and in which "] " stands at no index from 1 on, it yields
the label; in every case the short name is a suffix of the label; and the
label "[NFC] Reader" gives "Reader". -/
theorem menu_short_name_spec :
    (∀ (item : MenuItem) (i : Nat),
      item.label.toList.head? = some '[' → 1 ≤ i → tag_end_at item.label.toList i →
      (∀ j, 1 ≤ j → j < i → ¬ tag_end_at item.label.toList j) →
      menu_short_name item = String.mk (item.label.toList.drop (i + 2))) ∧
    (∀ item : MenuItem, item.label.toList.head? ≠ some '[' →
      menu_short_name item = item.label) ∧
    (∀ item : MenuItem, item.label.toList.head? = some '[' →
      (∀ j, 1 ≤ j → ¬ tag_end_at item.label.toList j) →
      menu_short_name item = item.label) ∧
    (∀ item : MenuItem, (menu_short_name item).toList <:+ item.label.toList) ∧
    menu_short_name (labelled "[NFC] Reader") = "Reader" := by
  refine ⟨?_, ?_, ?_, ?_, by decide⟩
  · intro item i hhead hi hat hfirst
    rw [menu_short_name_unfold, if_pos ((head_bracket _).mpr hhead),
      search_tag_end _ i hi hat hfirst]
  · intro item hhead
    rw [menu_short_name_unfold, if_neg (fun h => hhead ((head_bracket _).mp h))]
  · intro item hhead hnone
    rw [menu_short_name_unfold, if_pos ((head_bracket _).mpr hhead)]
    cases hs : search_from [']', ' '] (item.label.toList.drop 1) 1 with
    | none => rfl
    | some k =>
      exfalso
      obtain ⟨n, _, hn, _⟩ := search_from_some _ _ _ _ hs
      exact hnone (n + 1) (by omega) ((tag_end_at_succ _ n).mp hn)
  · intro item
    rw [menu_short_name_unfold]
    split_ifs
    · cases hs : search_from [']', ' '] (item.label.toList.drop 1) 1 with
      | none => exact List.suffix_refl _
      | some k => exact List.drop_suffix _ _
    · exact List.suffix_refl _

/-- C21 on three labels: "[NFC] Reader" loses its tag at index 4, "Settings"
and "[Beta" stay as they are. -/
theorem menu_short_name_spec_witness :
    menu_short_name (labelled "[NFC] Reader") =
      String.mk ((labelled "[NFC] Reader").label.toList.drop (4 + 2)) ∧
    menu_short_name (labelled "Settings") = "Settings" ∧
    menu_short_name (labelled "[Beta") = "[Beta" :=
  ⟨menu_short_name_spec.1 (labelled "[NFC] Reader") 4 (by decide) (by decide) (by decide)
     (by decide),
   menu_short_name_spec.2.1 (labelled "Settings") (by decide),
   menu_short_name_spec.2.2.1 (labelled "[Beta") (by decide) (by
     intro j hj hat
     have hlt := tag_end_at_lt _ j hat
     have h5 : j < 5 := hlt
     interval_cases j <;> exact absurd hat (by decide))⟩

/-! ## C22: the selected row stays inside the window of eight rows -/

theorem run_moves_items (moves : List (MenuStyle × NavKey)) (menu : Menu) :
    (run_moves moves menu).model.items = menu.model.items := by
  induction moves generalizing menu with
  | nil => rfl
  | cons move rest ih =>
    simp only [run_moves, List.foldl_cons] at *
    rw [ih, navigate_items]

/-- A move in list, carousel or vertical style keeps the window invariant. -/
theorem navigate_linear_window_invariant (s : MenuStyle) (k : NavKey) (menu : Menu)
    (hs : s ≠ MenuStyle.MenuStyleWii)
    (hcount : 8 ≤ MenuItemArray_size menu.model.items)
    (hrep : MenuItemArray_size menu.model.items < SIZE_T_MOD)
    (h : window_invariant menu.model) : window_invariant (navigate s k menu).model := by
  simp only [window_invariant, MenuItemArray_size, SIZE_T_MOD] at *
  cases k <;> cases s <;>
    simp [navigate, menu_process_up, menu_process_down, menu_process_left,
      menu_process_right, process_move_model, menu_process_up_switch,
      menu_process_down_switch, menu_process_left_switch, menu_process_right_switch,
      size_t_sub, size_t_add, SIZE_T_MOD, MenuItemArray_size] at * <;>
    (try split_ifs) <;> (try simp at *) <;> omega

/-- A move in grid-pair style establishes the window invariant from every
position in range. -/
theorem navigate_wii_window_invariant (k : NavKey) (menu : Menu)
    (hcount : 8 ≤ MenuItemArray_size menu.model.items)
    (hrep : MenuItemArray_size menu.model.items ≤ INT_MAX)
    (hpos : menu.model.position < MenuItemArray_size menu.model.items) :
    window_invariant (navigate MenuStyle.MenuStyleWii k menu).model := by
  have hsize : MenuItemArray_size menu.model.items < SIZE_T_MOD := by
    simp only [SIZE_T_MOD, INT_MAX] at *
    omega
  have hlt := navigate_position_lt MenuStyle.MenuStyleWii k menu (by omega) hsize hpos
    (by
      intro hh
      omega)
  have hvo := wii_vertical_offset_eq _ _ hrep (Or.inl hlt)
  rw [← wii_navigate_vertical_offset] at hvo
  unfold window_invariant
  rw [navigate_items]
  omega

/-- Every move keeps the window invariant on a store of at least eight items
whose count is representable as an `int`. -/
theorem navigate_window_invariant (s : MenuStyle) (k : NavKey) (menu : Menu)
    (hcount : 8 ≤ MenuItemArray_size menu.model.items)
    (hrep : MenuItemArray_size menu.model.items ≤ INT_MAX)
    (h : window_invariant menu.model) : window_invariant (navigate s k menu).model := by
  by_cases hs : s = MenuStyle.MenuStyleWii
  · subst hs
    exact navigate_wii_window_invariant k menu hcount hrep h.1
  · apply navigate_linear_window_invariant s k menu hs hcount _ h
    simp only [SIZE_T_MOD, INT_MAX] at *
    omega

theorem run_moves_window_invariant (moves : List (MenuStyle × NavKey)) (menu : Menu)
    (hcount : 8 ≤ MenuItemArray_size menu.model.items)
    (hrep : MenuItemArray_size menu.model.items ≤ INT_MAX)
    (h : window_invariant menu.model) : window_invariant (run_moves moves menu).model := by
  induction moves generalizing menu with
  | nil => exact h
  | cons move rest ih =>
    simp only [run_moves, List.foldl_cons] at *
    apply ih
    · rw [navigate_items]
      exact hcount
    · rw [navigate_items]
      exact hrep
    · exact navigate_window_invariant _ _ _ hcount hrep h

/-- C22: on a store of `count ≥ 8` items (`count` representable as an `int`),
from position 0 and `vertical_offset` 0, after every finite sequence of Up,
Down, Left and Right presses, each under any of the four styles, the state
satisfies `vertical_offset ≤ position < vertical_offset + 8` and
`vertical_offset + 8 ≤ count`; so the selected item is the item of one of the
eight passes of the vertical renderer's loop, and every pass has an item below
`count`. -/
theorem selected_row_in_window (menu : Menu) (moves : List (MenuStyle × NavKey))
    (hcount : 8 ≤ MenuItemArray_size menu.model.items)
    (hrep : MenuItemArray_size menu.model.items ≤ INT_MAX)
    (hpos : menu.model.position = 0) (hvo : menu.model.vertical_offset = 0) :
    (run_moves moves menu).model.vertical_offset ≤ (run_moves moves menu).model.position ∧
    (run_moves moves menu).model.position < (run_moves moves menu).model.vertical_offset + 8 ∧
    (run_moves moves menu).model.vertical_offset + 8 ≤ MenuItemArray_size menu.model.items ∧
    (∃ i : Nat, i < 8 ∧
      size_t_add (run_moves moves menu).model.vertical_offset i
        = (run_moves moves menu).model.position) ∧
    (∀ i : Nat, i < 8 →
      size_t_add (run_moves moves menu).model.vertical_offset i
        < MenuItemArray_size menu.model.items) := by
  have hinit : window_invariant menu.model := by
    unfold window_invariant
    omega
  have h := run_moves_window_invariant moves menu hcount hrep hinit
  unfold window_invariant at h
  rw [run_moves_items] at h
  obtain ⟨h1, h2, h3, h4, _, _⟩ := h
  simp only [size_t_add, SIZE_T_MOD, INT_MAX] at *
  refine ⟨h3, h4, h2, ?_, ?_⟩
  · exact ⟨(run_moves moves menu).model.position - (run_moves moves menu).model.vertical_offset,
      by omega, by omega⟩
  · intro i hi
    omega

/-- C22 on the ten-item store: after Up in list style (the wrap to the last
item), Left in grid-pair style and Left in vertical style the position is 6
and the window starts at 2. -/
theorem selected_row_in_window_witness :
    (run_moves [(MenuStyle.MenuStyleList, NavKey.Up), (MenuStyle.MenuStyleWii, NavKey.Left),
      (MenuStyle.MenuStyleVertical, NavKey.Left)] ten_item_menu_at_start).model.position = 6 ∧
    (run_moves [(MenuStyle.MenuStyleList, NavKey.Up), (MenuStyle.MenuStyleWii, NavKey.Left),
      (MenuStyle.MenuStyleVertical, NavKey.Left)]
      ten_item_menu_at_start).model.vertical_offset = 2 ∧
    (run_moves [(MenuStyle.MenuStyleList, NavKey.Up), (MenuStyle.MenuStyleWii, NavKey.Left),
      (MenuStyle.MenuStyleVertical, NavKey.Left)] ten_item_menu_at_start).model.vertical_offset
      ≤ (run_moves [(MenuStyle.MenuStyleList, NavKey.Up), (MenuStyle.MenuStyleWii, NavKey.Left),
        (MenuStyle.MenuStyleVertical, NavKey.Left)] ten_item_menu_at_start).model.position :=
  ⟨by decide, by decide,
   (selected_row_in_window ten_item_menu_at_start
     [(MenuStyle.MenuStyleList, NavKey.Up), (MenuStyle.MenuStyleWii, NavKey.Left),
      (MenuStyle.MenuStyleVertical, NavKey.Left)]
     (by decide) (by decide) (by decide) (by decide)).1⟩

/-! ## C23: the offset after the wrap on a store of fewer than eight items -/

/-- On a store of at least eight items the offset stays at most `count - 8`
under every sequence of moves from position 0 and offset 0. -/
theorem vertical_offset_le_of_eight (menu : Menu) (moves : List (MenuStyle × NavKey))
    (hcount : 8 ≤ MenuItemArray_size menu.model.items)
    (hrep : MenuItemArray_size menu.model.items ≤ INT_MAX)
    (hpos : menu.model.position = 0) (hvo : menu.model.vertical_offset = 0) :
    (run_moves moves menu).model.vertical_offset ≤ MenuItemArray_size menu.model.items - 8 := by
  have hinit : window_invariant menu.model := by
    unfold window_invariant
    omega
  have h := run_moves_window_invariant moves menu hcount hrep hinit
  unfold window_invariant at h
  rw [run_moves_items] at h
  omega

/-- C23, at the input where the code leaves the bound: on the three-item store
with position 0 and `vertical_offset` 0, one press of Up in list style, or of
Left in carousel or vertical style, wraps the position to 2 and assigns
`vertical_offset = count - 8` in `size_t` arithmetic, which is 4294967291 and
not at most `max(count - 8, 0) = 0`. -/
theorem linear_wrap_offset_underflows :
    MenuItemArray_size three_item_menu.model.items = 3 ∧
    three_item_menu.model.position = 0 ∧
    three_item_menu.model.vertical_offset = 0 ∧
    (run_moves [(MenuStyle.MenuStyleList, NavKey.Up)] three_item_menu).model.position = 2 ∧
    (run_moves [(MenuStyle.MenuStyleList, NavKey.Up)] three_item_menu).model.vertical_offset
      = 4294967291 ∧
    (run_moves [(MenuStyle.MenuStyleDsi, NavKey.Left)] three_item_menu).model.vertical_offset
      = 4294967291 ∧
    (run_moves [(MenuStyle.MenuStyleVertical, NavKey.Left)]
      three_item_menu).model.vertical_offset = 4294967291 ∧
    ¬ (((run_moves [(MenuStyle.MenuStyleList, NavKey.Up)]
        three_item_menu).model.vertical_offset : Int)
      ≤ max ((MenuItemArray_size three_item_menu.model.items : Int) - 8) 0) := by
  decide

/-! ## The renderer's loops, pass by pass -/

/-- What a loop shows is what its passes show, one after the other. -/
theorem draw_loop_filterMap {α β : Type} (obs : DrawCmd → Option β)
    (body : α → Option (List DrawCmd)) (l : List α) (g : α → List β)
    (h : ∀ i ∈ l, ∃ cmds, body i = some cmds ∧ cmds.filterMap obs = g i) :
    ∃ out, draw_loop body l = some out ∧ out.filterMap obs = (l.map g).flatten := by
  induction l with
  | nil => exact ⟨[], rfl, rfl⟩
  | cons a rest ih =>
    obtain ⟨cmds, hc, hg⟩ := h a (List.mem_cons_self a rest)
    obtain ⟨more, hm, hmore⟩ := ih (fun i hi => h i (List.mem_cons_of_mem a hi))
    refine ⟨cmds ++ more, ?_, ?_⟩
    · simp [draw_loop, hc, hm]
    · simp [List.filterMap_append, hg, hmore]

/-- The calls of every pass are among the calls of the loop. -/
theorem draw_loop_mem {α : Type} (body : α → Option (List DrawCmd)) (l : List α)
    (out : List DrawCmd) (h : draw_loop body l = some out) (i : α) (hi : i ∈ l)
    (cmds : List DrawCmd) (hc : body i = some cmds) : ∀ x ∈ cmds, x ∈ out := by
  induction l generalizing out with
  | nil => simp at hi
  | cons a rest ih =>
    unfold draw_loop at h
    cases ha : body a with
    | none => simp [ha] at h
    | some first =>
      cases hr : draw_loop body rest with
      | none => simp [ha, hr] at h
      | some more =>
        simp only [ha, hr, Option.some.injEq] at h
        subst h
        intro x hx
        rcases List.mem_cons.mp hi with heq | hmem
        · subst heq
          rw [ha] at hc
          cases hc
          exact List.mem_append_left _ hx
        · exact List.mem_append_right _ (ih more hr hmem x hx)

/-- Passes that show one thing under a condition and nothing otherwise show,
together, the things of the passes that meet the condition. -/
theorem flatten_map_ite {α β : Type} (l : List α) (P : α → Prop) [DecidablePred P]
    (h : α → β) :
    (l.map (fun i => if P i then [h i] else [])).flatten = (l.filter (fun i => P i)).map h := by
  induction l with
  | nil => rfl
  | cons a rest ih =>
    by_cases ha : P a
    · simp [ha, ih]
    · simp [ha, ih]

theorem menu_centered_icon_text_scrolls (item : MenuItem) (x y w h : Nat) :
    text_scrolls (menu_centered_icon item x y w h) = [] := by
  unfold menu_centered_icon text_scrolls
  cases item.icon <;> rfl

theorem menu_centered_icon_drawn_texts (item : MenuItem) (x y w h : Nat) :
    drawn_texts (menu_centered_icon item x y w h) = [] := by
  unfold menu_centered_icon drawn_texts
  cases item.icon <;> rfl

theorem menu_centered_icon_drawn_animations (item : MenuItem) (x y w h : Nat) :
    drawn_animations (menu_centered_icon item x y w h) = item.icon.toList := by
  unfold menu_centered_icon drawn_animations
  cases item.icon <;> rfl

theorem text_scrolls_append (a b : List DrawCmd) :
    text_scrolls (a ++ b) = text_scrolls a ++ text_scrolls b := by
  simp [text_scrolls, List.filterMap_append]

theorem drawn_texts_append (a b : List DrawCmd) :
    drawn_texts (a ++ b) = drawn_texts a ++ drawn_texts b := by
  simp [drawn_texts, List.filterMap_append]

theorem drawn_animations_append (a b : List DrawCmd) :
    drawn_animations (a ++ b) = drawn_animations a ++ drawn_animations b := by
  simp [drawn_animations, List.filterMap_append]

/-- A pass of the list loop hands the text line the offset of
`menu_scroll_counter`, selected for the middle row `i == 1`. -/
theorem draw_list_row_scroll (model : MenuModel) (p i : Nat)
    (hc : 0 < MenuItemArray_size model.items) :
    ∃ cmds, draw_list_row model p (MenuItemArray_size model.items) i = some cmds ∧
      text_scrolls cmds = [menu_scroll_counter model (i == 1)] := by
  obtain ⟨item, hitem⟩ := MenuItemArray_get_of_lt model.items _
    (list_shift_position_lt p (MenuItemArray_size model.items) i hc)
  simp only [draw_list_row, hitem]
  refine ⟨_, rfl, ?_⟩
  simp only [text_scrolls_append, menu_centered_icon_text_scrolls]
  simp [text_scrolls, DrawCmd.scroll_offset]

/-- A pass of the grid-pair loop with an item hands the text line the offset
of `menu_scroll_counter`, selected when the item is the one at `position`; a
pass without item hands nothing. -/
theorem draw_wii_slot_scroll (f : LabelIsLiteral) (model : MenuModel) (p s i : Nat) :
    ∃ cmds, draw_wii_slot f model p (MenuItemArray_size model.items) s i = some cmds ∧
      text_scrolls cmds =
        if size_t_add s i < MenuItemArray_size model.items then
          [menu_scroll_counter model (size_t_add s i == p)]
        else [] := by
  unfold draw_wii_slot
  by_cases h : size_t_add s i ≥ MenuItemArray_size model.items
  · exact ⟨[], by simp [h], by simp [Nat.not_lt.mpr h, text_scrolls]⟩
  · obtain ⟨item, hitem⟩ := MenuItemArray_get_of_lt model.items _ (Nat.lt_of_not_ge h)
    simp only [h, hitem, if_false]
    refine ⟨_, rfl, ?_⟩
    rw [if_pos (Nat.lt_of_not_ge h)]
    simp only [text_scrolls_append, menu_centered_icon_text_scrolls]
    by_cases hsel : size_t_add s i = p <;> simp [hsel, text_scrolls, DrawCmd.scroll_offset]

/-- A pass of the carousel loop hands a text line an offset in the centre pass
only, the one of `menu_scroll_counter` for a selected row. -/
theorem draw_dsi_slot_scroll (model : MenuModel) (p : Nat) (i : Int)
    (hc : 0 < MenuItemArray_size model.items) :
    ∃ cmds, draw_dsi_slot model p (MenuItemArray_size model.items) i = some cmds ∧
      text_scrolls cmds = if i = 0 then [menu_scroll_counter model true] else [] := by
  obtain ⟨item, hitem⟩ := MenuItemArray_get_of_lt model.items _
    (dsi_shift_position_lt p (MenuItemArray_size model.items) i hc)
  simp only [draw_dsi_slot, hitem]
  by_cases h0 : i = 0
  · simp only [h0, if_true]
    refine ⟨_, rfl, ?_⟩
    simp only [text_scrolls_append, menu_centered_icon_text_scrolls]
    simp [text_scrolls, DrawCmd.scroll_offset]
  · simp only [h0, if_false]
    refine ⟨_, rfl, ?_⟩
    simp only [text_scrolls_append, menu_centered_icon_text_scrolls]
    simp [text_scrolls, DrawCmd.scroll_offset]

/-- A pass of the vertical loop with an item hands the text line the offset of
`menu_scroll_counter`, selected when the item is the one at `position`; a pass
without item hands nothing. -/
theorem draw_vertical_row_scroll (model : MenuModel) (p s i : Nat) :
    ∃ cmds, draw_vertical_row model p (MenuItemArray_size model.items) s i = some cmds ∧
      text_scrolls cmds =
        if size_t_add s i < MenuItemArray_size model.items then
          [menu_scroll_counter model (size_t_add s i == p)]
        else [] := by
  unfold draw_vertical_row
  by_cases h : size_t_add s i ≥ MenuItemArray_size model.items
  · exact ⟨[], by simp [h], by simp [Nat.not_lt.mpr h, text_scrolls]⟩
  · obtain ⟨item, hitem⟩ := MenuItemArray_get_of_lt model.items _ (Nat.lt_of_not_ge h)
    simp only [h, hitem, if_false]
    refine ⟨_, rfl, ?_⟩
    rw [if_pos (Nat.lt_of_not_ge h)]
    simp only [text_scrolls_append, menu_centered_icon_text_scrolls]
    by_cases hsel : size_t_add s i = p <;> simp [hsel, text_scrolls, DrawCmd.scroll_offset]

theorem menu_scroll_counter_selected (model : MenuModel)
    (hrep : model.scroll_counter < SIZE_T_MOD) (selected : Bool) :
    menu_scroll_counter model selected = if selected = true then model.scroll_counter - 1 else 0 := by
  cases selected <;>
    simp only [menu_scroll_counter, size_t_sub, SIZE_T_MOD, Bool.not_true, Bool.not_false,
      Bool.false_eq_true, if_false, if_true] at *
  split_ifs <;> omega

/-- The scroll offsets of the list rendering: 0, the selected offset, 0. -/
theorem list_render_scrolls (f : LabelIsLiteral) (model : MenuModel)
    (hrep : model.scroll_counter < SIZE_T_MOD) (hc : 0 < MenuItemArray_size model.items) :
    ∃ out, menu_draw_callback f MenuStyle.MenuStyleList model = some out ∧
      text_scrolls out = [0, model.scroll_counter - 1, 0] := by
  obtain ⟨rows, hrows, hobs⟩ := draw_loop_filterMap DrawCmd.scroll_offset
    (draw_list_row model model.position (MenuItemArray_size model.items)) [0, 1, 2]
    (fun i => [menu_scroll_counter model (i == 1)])
    (fun i _ => draw_list_row_scroll model model.position i hc)
  refine ⟨_, by simp only [menu_draw_callback, Nat.pos_iff_ne_zero.mp hc, ne_eq,
    not_false_eq_true, if_true, hrows, Option.map_some']; rfl, ?_⟩
  simp only [text_scrolls_append]
  rw [show text_scrolls rows = _ from hobs]
  simp [text_scrolls, DrawCmd.scroll_offset, menu_scroll_counter_selected model hrep]

/-- The scroll offsets of the carousel rendering: the selected offset alone, in
the centre pass. -/
theorem dsi_render_scrolls (f : LabelIsLiteral) (model : MenuModel)
    (hrep : model.scroll_counter < SIZE_T_MOD) (hc : 0 < MenuItemArray_size model.items) :
    ∃ out, menu_draw_callback f MenuStyle.MenuStyleDsi model = some out ∧
      text_scrolls out = [model.scroll_counter - 1] := by
  obtain ⟨slots, hslots, hobs⟩ := draw_loop_filterMap DrawCmd.scroll_offset
    (draw_dsi_slot model model.position (MenuItemArray_size model.items)) [-2, -1, 0, 1, 2]
    (fun i => if i = 0 then [menu_scroll_counter model true] else [])
    (fun i _ => draw_dsi_slot_scroll model model.position i hc)
  refine ⟨_, by simp only [menu_draw_callback, Nat.pos_iff_ne_zero.mp hc, ne_eq,
    not_false_eq_true, if_true, hslots, Option.map_some']; rfl, ?_⟩
  simp only [text_scrolls_append]
  rw [show text_scrolls slots = _ from hobs]
  simp [text_scrolls, DrawCmd.scroll_offset, menu_scroll_counter_selected model hrep]

/-- The scroll offsets of the grid-pair rendering: one per pass with an item,
the selected offset for the item at `position` and 0 for every other. -/
theorem wii_render_scrolls (f : LabelIsLiteral) (model : MenuModel)
    (hrep : model.scroll_counter < SIZE_T_MOD) (hc : 0 < MenuItemArray_size model.items) :
    ∃ out, menu_draw_callback f MenuStyle.MenuStyleWii model = some out ∧
      text_scrolls out =
        ([0, 1, 2, 3, 4, 5].filter (fun i =>
          size_t_add (wii_shift_position model.position (MenuItemArray_size model.items)) i
            < MenuItemArray_size model.items)).map (fun i =>
          if size_t_add (wii_shift_position model.position (MenuItemArray_size model.items)) i
              = model.position then model.scroll_counter - 1 else 0) := by
  obtain ⟨slots, hslots, hobs⟩ := draw_loop_filterMap DrawCmd.scroll_offset
    (draw_wii_slot f model model.position (MenuItemArray_size model.items)
      (wii_shift_position model.position (MenuItemArray_size model.items))) [0, 1, 2, 3, 4, 5]
    (fun i => if size_t_add (wii_shift_position model.position
        (MenuItemArray_size model.items)) i < MenuItemArray_size model.items then
      [if size_t_add (wii_shift_position model.position (MenuItemArray_size model.items)) i
          = model.position then model.scroll_counter - 1 else 0]
      else [])
    (fun i _ => by
      obtain ⟨cmds, h1, h2⟩ := draw_wii_slot_scroll f model model.position
        (wii_shift_position model.position (MenuItemArray_size model.items)) i
      refine ⟨cmds, h1, ?_⟩
      rw [show cmds.filterMap DrawCmd.scroll_offset = _ from h2,
        menu_scroll_counter_selected model hrep]
      simp)
  refine ⟨_, by simp only [menu_draw_callback, Nat.pos_iff_ne_zero.mp hc, ne_eq,
    not_false_eq_true, if_true, hslots, Option.map_some']; rfl, ?_⟩
  simp only [text_scrolls_append]
  rw [show text_scrolls slots = _ from hobs, flatten_map_ite]
  simp [text_scrolls, DrawCmd.scroll_offset]

/-- The scroll offsets of the vertical rendering: one per pass with an item,
the selected offset for the item at `position` and 0 for every other. -/
theorem vertical_render_scrolls (f : LabelIsLiteral) (model : MenuModel)
    (hrep : model.scroll_counter < SIZE_T_MOD) (hc : 0 < MenuItemArray_size model.items) :
    ∃ out, menu_draw_callback f MenuStyle.MenuStyleVertical model = some out ∧
      text_scrolls out =
        ([0, 1, 2, 3, 4, 5, 6, 7].filter (fun i =>
          size_t_add model.vertical_offset i < MenuItemArray_size model.items)).map (fun i =>
          if size_t_add model.vertical_offset i = model.position then
            model.scroll_counter - 1 else 0) := by
  obtain ⟨rows, hrows, hobs⟩ := draw_loop_filterMap DrawCmd.scroll_offset
    (draw_vertical_row model model.position (MenuItemArray_size model.items)
      model.vertical_offset) [0, 1, 2, 3, 4, 5, 6, 7]
    (fun i => if size_t_add model.vertical_offset i < MenuItemArray_size model.items then
      [if size_t_add model.vertical_offset i = model.position then
        model.scroll_counter - 1 else 0]
      else [])
    (fun i _ => by
      obtain ⟨cmds, h1, h2⟩ := draw_vertical_row_scroll model model.position
        model.vertical_offset i
      refine ⟨cmds, h1, ?_⟩
      rw [show cmds.filterMap DrawCmd.scroll_offset = _ from h2,
        menu_scroll_counter_selected model hrep]
      simp)
  refine ⟨_, by simp only [menu_draw_callback, Nat.pos_iff_ne_zero.mp hc, ne_eq,
    not_false_eq_true, if_true, hrows, Option.map_some']; rfl, ?_⟩
  simp only [text_scrolls_append]
  rw [show text_scrolls rows = _ from hobs, flatten_map_ite]
  simp [text_scrolls, DrawCmd.scroll_offset]

/-! ## C14: the scroll offset the renderer passes for a row -/

/-- C14: on a non-empty store with a `scroll_counter` that is a `size_t`
value, the scroll offsets that `menu_draw_callback` hands to its text line
calls are, over the integers, `max(scroll_counter - 1, 0)` for the selected
row and 0 for every other row, and `menu_scroll_counter` yields these two
values: the list rendering hands 0, the selected offset and 0 to its three
rows, the middle row being the item at `position`; the carousel rendering
hands the selected offset to its one text line, in the centre pass; the
grid-pair and the vertical rendering hand, per pass with an item, the
selected offset when the item is the one at `position` and 0 otherwise.  The
renderer is a function of the model and changes nothing. -/
theorem renderer_scroll_offsets (f : LabelIsLiteral) (model : MenuModel)
    (hrep : model.scroll_counter < SIZE_T_MOD) (hcount : 0 < MenuItemArray_size model.items) :
    ((model.scroll_counter - 1 : Nat) : Int) = max ((model.scroll_counter : Int) - 1) 0 ∧
    menu_scroll_counter model true = model.scroll_counter - 1 ∧
    menu_scroll_counter model false = 0 ∧
    (∃ out, menu_draw_callback f MenuStyle.MenuStyleList model = some out ∧
      text_scrolls out = [0, model.scroll_counter - 1, 0]) ∧
    (model.position < MenuItemArray_size model.items →
      MenuItemArray_size model.items ≤ INT_MAX →
      list_shift_position model.position (MenuItemArray_size model.items) 1 = model.position) ∧
    (∃ out, menu_draw_callback f MenuStyle.MenuStyleDsi model = some out ∧
      text_scrolls out = [model.scroll_counter - 1]) ∧
    (∃ out, menu_draw_callback f MenuStyle.MenuStyleWii model = some out ∧
      text_scrolls out =
        ([0, 1, 2, 3, 4, 5].filter (fun i =>
          size_t_add (wii_shift_position model.position (MenuItemArray_size model.items)) i
            < MenuItemArray_size model.items)).map (fun i =>
          if size_t_add (wii_shift_position model.position (MenuItemArray_size model.items)) i
              = model.position then model.scroll_counter - 1 else 0)) ∧
    (∃ out, menu_draw_callback f MenuStyle.MenuStyleVertical model = some out ∧
      text_scrolls out =
        ([0, 1, 2, 3, 4, 5, 6, 7].filter (fun i =>
          size_t_add model.vertical_offset i < MenuItemArray_size model.items)).map (fun i =>
          if size_t_add model.vertical_offset i = model.position then
            model.scroll_counter - 1 else 0)) := by
  refine ⟨by omega, ?_, ?_, list_render_scrolls f model hrep hcount, ?_,
    dsi_render_scrolls f model hrep hcount, wii_render_scrolls f model hrep hcount,
    vertical_render_scrolls f model hrep hcount⟩
  · rw [menu_scroll_counter_selected model hrep]
    rfl
  · rw [menu_scroll_counter_selected model hrep]
    rfl
  · intro hpos hint
    have hmod : (model.position + MenuItemArray_size model.items) % MenuItemArray_size model.items
        = model.position := by
      rw [Nat.add_mod_right]
      exact Nat.mod_eq_of_lt hpos
    have hsum : size_t_sub (size_t_add (size_t_add model.position
        (MenuItemArray_size model.items)) 1) 1
        = model.position + MenuItemArray_size model.items := by
      simp only [size_t_sub, size_t_add, SIZE_T_MOD, INT_MAX] at *
      omega
    unfold list_shift_position
    rw [hsum, hmod]

/-- C14 after four ticks: the list rendering of the three-item store hands the
offsets 0, 3, 0; the vertical rendering of the ten-item store with position 9
and offset 2 hands 0 to its first seven rows and 3 to the last one. -/
theorem renderer_scroll_offsets_witness :
    (∃ out, menu_draw_callback label_text_is MenuStyle.MenuStyleList
        four_ticks_three_item_menu.model = some out ∧
      text_scrolls out = [0, 4 - 1, 0]) ∧
    (∃ out, menu_draw_callback label_text_is MenuStyle.MenuStyleVertical
        four_ticks_ten_item_model = some out ∧
      text_scrolls out = [0, 0, 0, 0, 0, 0, 0, 3]) :=
  ⟨(renderer_scroll_offsets label_text_is four_ticks_three_item_menu.model
      (by decide) (by decide)).2.2.2.1,
   by
    have h := (renderer_scroll_offsets label_text_is four_ticks_ten_item_model
      (by decide) (by decide)).2.2.2.2.2.2.2
    obtain ⟨out, h1, h2⟩ := h
    exact ⟨out, h1, h2.trans (by decide)⟩⟩

/-! ## C7: the items the carousel renderer draws -/

/-- A pass of the carousel loop reads the item at `(position + count + i) mod
count` and draws its animation, and in the centre pass its label. -/
theorem draw_dsi_slot_shows (model : MenuModel) (i : Int) (hlo : -2 ≤ i) (hhi : i ≤ 2)
    (hcount : 1 ≤ MenuItemArray_size model.items)
    (hrep : MenuItemArray_size model.items ≤ INT_MAX)
    (hpos : model.position < MenuItemArray_size model.items) :
    ∃ item cmds,
      MenuItemArray_get model.items
        (spec_dsi_slot model.position (MenuItemArray_size model.items) i).toNat = some item ∧
      draw_dsi_slot model model.position (MenuItemArray_size model.items) i = some cmds ∧
      drawn_animations cmds = item.icon.toList ∧
      drawn_texts cmds = if i = 0 then [item.label] else [] := by
  have hidx : (spec_dsi_slot model.position (MenuItemArray_size model.items) i).toNat
      = dsi_shift_position model.position (MenuItemArray_size model.items) i := by
    rw [← dsi_shift_position_spec _ _ i hlo hhi hcount hrep hpos]
    rfl
  obtain ⟨item, hitem⟩ := MenuItemArray_get_of_lt model.items _
    (dsi_shift_position_lt model.position (MenuItemArray_size model.items) i (by omega))
  refine ⟨item, ?_⟩
  rw [hidx]
  simp only [draw_dsi_slot, hitem]
  by_cases h0 : i = 0
  · simp only [h0, if_true]
    refine ⟨_, trivial, rfl, ?_, ?_⟩
    · simp only [drawn_animations_append, menu_centered_icon_drawn_animations]
      simp [drawn_animations, DrawCmd.animation]
    · simp only [drawn_texts_append, menu_centered_icon_drawn_texts]
      simp [drawn_texts, DrawCmd.line_text]
  · simp only [h0, if_false]
    refine ⟨_, trivial, rfl, ?_, ?_⟩
    · simp only [drawn_animations_append, menu_centered_icon_drawn_animations]
      simp [drawn_animations, DrawCmd.animation]
    · simp only [drawn_texts_append, menu_centered_icon_drawn_texts]
      simp [drawn_texts, DrawCmd.line_text]

theorem spec_dsi_slot_zero (p c : Nat) (hpos : p < c) : (spec_dsi_slot p c 0).toNat = p := by
  unfold spec_dsi_slot
  rw [add_zero, Int.add_emod_self, Int.emod_eq_of_lt (by omega) (by omega)]
  rfl

/-- C7: in carousel style, on a store with `count ≥ 1` items (`count`
representable as an `int`) and `position < count`, each pass `i = -2, -1, 0,
1, 2` of the renderer's loop reads the item at the index `(position + count +
i) mod count`, taken over the integers, and draws its animation, the centre
pass drawing its label too; so the animations that `menu_draw_callback` draws
are, in loop order, those of the items at these five indices, and the one text
line is the label of the item at `position`, the centre index; the indices
computed are these five integers, and for `count ≥ 5` they are pairwise
distinct. -/
theorem dsi_renderer_slots (f : LabelIsLiteral) (model : MenuModel)
    (hcount : 1 ≤ MenuItemArray_size model.items)
    (hrep : MenuItemArray_size model.items ≤ INT_MAX)
    (hpos : model.position < MenuItemArray_size model.items) :
    (∀ i : Int, -2 ≤ i → i ≤ 2 → ∃ item cmds,
      MenuItemArray_get model.items
        (spec_dsi_slot model.position (MenuItemArray_size model.items) i).toNat = some item ∧
      draw_dsi_slot model model.position (MenuItemArray_size model.items) i = some cmds ∧
      drawn_animations cmds = item.icon.toList ∧
      drawn_texts cmds = if i = 0 then [item.label] else []) ∧
    (∃ out, menu_draw_callback f MenuStyle.MenuStyleDsi model = some out ∧
      drawn_animations out =
        ([-2, -1, 0, 1, 2].map (fun i : Int =>
          ((MenuItemArray_get model.items
            (spec_dsi_slot model.position (MenuItemArray_size model.items) i).toNat).bind
              (fun item => item.icon)).toList)).flatten ∧
      drawn_texts out =
        ((MenuItemArray_get model.items model.position).map (fun item => item.label)).toList) ∧
    (spec_dsi_slot model.position (MenuItemArray_size model.items) 0).toNat = model.position ∧
    dsi_shift_position model.position (MenuItemArray_size model.items) 0 = model.position ∧
    (dsi_slots model.position (MenuItemArray_size model.items)).map (fun n : Nat => (n : Int)) =
      [-2, -1, 0, 1, 2].map (spec_dsi_slot model.position (MenuItemArray_size model.items)) ∧
    (5 ≤ MenuItemArray_size model.items →
      ([-2, -1, 0, 1, 2].map (fun i : Int =>
        (spec_dsi_slot model.position (MenuItemArray_size model.items) i).toNat)).Nodup) := by
  have hidx := dsi_slots_indices model.position (MenuItemArray_size model.items) hcount hrep hpos
  have hnat : dsi_slots model.position (MenuItemArray_size model.items) =
      [-2, -1, 0, 1, 2].map (fun i : Int =>
        (spec_dsi_slot model.position (MenuItemArray_size model.items) i).toNat) := by
    have h := congrArg (List.map Int.toNat) hidx.1
    simpa [List.map_map, Function.comp_def] using h
  have hzero := spec_dsi_slot_zero model.position (MenuItemArray_size model.items) hpos
  have hpass := fun (i : Int) (hlo : -2 ≤ i) (hhi : i ≤ 2) =>
    draw_dsi_slot_shows model i hlo hhi hcount hrep hpos
  have hmem : ∀ i : Int, i ∈ [-2, -1, 0, 1, 2] → -2 ≤ i ∧ i ≤ 2 := by
    intro i hi
    simp only [List.mem_cons, List.mem_singleton, List.not_mem_nil, or_false] at hi
    omega
  refine ⟨hpass, ?_, hzero, hidx.2.1, hidx.1, fun h5 => hnat ▸ hidx.2.2 h5⟩
  obtain ⟨slots, hslots, hanim⟩ := draw_loop_filterMap DrawCmd.animation
    (draw_dsi_slot model model.position (MenuItemArray_size model.items)) [-2, -1, 0, 1, 2]
    (fun i : Int => ((MenuItemArray_get model.items
      (spec_dsi_slot model.position (MenuItemArray_size model.items) i).toNat).bind
        (fun item => item.icon)).toList)
    (fun i hi => by
      obtain ⟨item, cmds, hget, hdraw, ha, _⟩ := hpass i (hmem i hi).1 (hmem i hi).2
      exact ⟨cmds, hdraw, by simp only [hget]; exact ha⟩)
  obtain ⟨slots2, hslots2, htext⟩ := draw_loop_filterMap DrawCmd.line_text
    (draw_dsi_slot model model.position (MenuItemArray_size model.items)) [-2, -1, 0, 1, 2]
    (fun i : Int => if i = 0 then
      ((MenuItemArray_get model.items model.position).map (fun item => item.label)).toList
      else [])
    (fun i hi => by
      obtain ⟨item, cmds, hget, hdraw, _, ht⟩ := hpass i (hmem i hi).1 (hmem i hi).2
      refine ⟨cmds, hdraw, ?_⟩
      rw [show cmds.filterMap DrawCmd.line_text = _ from ht]
      by_cases h0 : i = 0
      · subst h0
        rw [hzero] at hget
        simp [hget]
      · simp [h0])
  have hsame : slots2 = slots := by
    rw [hslots] at hslots2
    exact (Option.some.inj hslots2).symm
  subst hsame
  refine ⟨_, by simp only [menu_draw_callback, Nat.pos_iff_ne_zero.mp hcount, ne_eq,
    not_false_eq_true, if_true, hslots, Option.map_some']; rfl, ?_, ?_⟩
  · simp only [drawn_animations_append]
    rw [show drawn_animations slots2 = _ from hanim]
    simp [drawn_animations, DrawCmd.animation]
  · simp only [drawn_texts_append]
    rw [show drawn_texts slots2 = _ from htext]
    simp [drawn_texts, DrawCmd.line_text]

/-- C7 on the five-item store with position 4: the indices are 2, 3, 4, 0, 1,
the centre pass draws the label "Settings" of the item at index 4, and the
one text line of the rendering is that label. -/
theorem dsi_renderer_slots_witness :
    [-2, -1, 0, 1, 2].map (fun i : Int => (spec_dsi_slot 4 5 i).toNat) = [2, 3, 4, 0, 1] ∧
    dsi_slots 4 5 = [2, 3, 4, 0, 1] ∧
    (∃ out, menu_draw_callback label_text_is MenuStyle.MenuStyleDsi
        (menu_set_selected_item five_item_menu 4).model = some out ∧
      drawn_texts out = ["Settings"]) :=
  ⟨by decide, by decide,
   by
    obtain ⟨out, h1, _, h3⟩ := (dsi_renderer_slots label_text_is
      (menu_set_selected_item five_item_menu 4).model (by decide) (by decide) (by decide)).2.1
    exact ⟨out, h1, h3.trans (by decide)⟩⟩

/-! ## C19: the grid-pair renderer shows the selected pair -/

/-- A pass of the grid-pair loop whose item is the one at `position`: the
filled box, the icon, the name in inverted colour. -/
theorem draw_wii_slot_selected (f : LabelIsLiteral) (model : MenuModel) (c s i : Nat)
    (item : MenuItem) (hlt : size_t_add s i < c) (hsel : size_t_add s i = model.position)
    (hget : MenuItemArray_get model.items model.position = some item) :
    draw_wii_slot f model model.position c s i = some (
      [DrawCmd.elements_slightly_rounded_box (0 + ((i / 2) * 43 + 1)) (0 + (i % 2) * 32) 40 30,
       DrawCmd.canvas_set_color Color.ColorWhite] ++
      menu_centered_icon item ((i / 2) * 43 + 1) ((i % 2) * 32) 40 20 ++
      [DrawCmd.elements_scrollable_text_line (20 + ((i / 2) * 43 + 1)) (26 + (i % 2) * 32) 36
         (wii_name f item) (menu_scroll_counter model true) false true,
       DrawCmd.canvas_set_color Color.ColorBlack]) := by
  unfold draw_wii_slot
  have hlt2 : model.position < c := hsel ▸ hlt
  simp only [ge_iff_le, hsel, Nat.not_le.mpr hlt2, if_false, hget, beq_self_eq_true, if_true]
  simp

/-- A pass of the grid-pair loop whose item is another one than the one at
`position`: the icon, the name, the outlined frame. -/
theorem draw_wii_slot_other (f : LabelIsLiteral) (model : MenuModel) (c s i : Nat)
    (item : MenuItem) (hlt : size_t_add s i < c) (hsel : size_t_add s i ≠ model.position)
    (hget : MenuItemArray_get model.items (size_t_add s i) = some item) :
    draw_wii_slot f model model.position c s i = some (
      menu_centered_icon item ((i / 2) * 43 + 1) ((i % 2) * 32) 40 20 ++
      [DrawCmd.elements_scrollable_text_line (20 + ((i / 2) * 43 + 1)) (26 + (i % 2) * 32) 36
         (wii_name f item) (menu_scroll_counter model false) false true,
       DrawCmd.elements_frame (0 + ((i / 2) * 43 + 1)) (0 + (i % 2) * 32) 40 30]) := by
  unfold draw_wii_slot
  have hb : (size_t_add s i == model.position) = false := by
    simpa using hsel
  simp only [ge_iff_le, Nat.not_le.mpr hlt, if_false, hget, hb, Bool.false_eq_true]
  simp

/-- The grid-pair rendering is made of the calls of its six passes. -/
theorem wii_render_passes (f : LabelIsLiteral) (model : MenuModel)
    (hc : 0 < MenuItemArray_size model.items) :
    ∃ out, menu_draw_callback f MenuStyle.MenuStyleWii model = some out ∧
      ∀ i : Nat, i < 6 → ∀ cmds,
        draw_wii_slot f model model.position (MenuItemArray_size model.items)
          (wii_shift_position model.position (MenuItemArray_size model.items)) i = some cmds →
        ∀ x ∈ cmds, x ∈ out := by
  have hsome := draw_loop_isSome
    (draw_wii_slot f model model.position (MenuItemArray_size model.items)
      (wii_shift_position model.position (MenuItemArray_size model.items)))
    [0, 1, 2, 3, 4, 5] (fun i _ => draw_wii_slot_isSome f model _ _ i)
  obtain ⟨slots, hslots⟩ := Option.isSome_iff_exists.mp hsome
  refine ⟨_, by simp only [menu_draw_callback, Nat.pos_iff_ne_zero.mp hc, ne_eq,
    not_false_eq_true, if_true, hslots, Option.map_some']; rfl, ?_⟩
  intro i hi cmds hcmds x hx
  have hmem : i ∈ [0, 1, 2, 3, 4, 5] := by
    simp only [List.mem_cons, List.mem_singleton, List.not_mem_nil, or_false]
    omega
  exact List.mem_append_right _ (draw_loop_mem _ _ slots hslots i hmem cmds hcmds x hx)

/-- C19: in grid-pair style, for a `count` that is a `size_t` value and
`position < count`, the window start `s` that the renderer computes is even
and `s ≤ position < s + 6`; one of the six passes `i < 6` of the renderer's
loop, with `i % 2 = position % 2`, has the item at `position` as its item and
draws it as the selected slot, the filled box and the name lying in the row
`position % 2` (at the height `(position % 2) * 32`); and for the pair partner
`q` of `position` (the other index with `q / 2 = position / 2`), when it is
below `count`, one of the six passes draws the item at `q` as an outlined slot
in the row `q % 2`; the calls of both passes are among the calls of
`menu_draw_callback`. -/
theorem wii_renderer_shows_selected (f : LabelIsLiteral) (model : MenuModel)
    (hrep : MenuItemArray_size model.items < SIZE_T_MOD)
    (hpos : model.position < MenuItemArray_size model.items) :
    wii_shift_position model.position (MenuItemArray_size model.items) % 2 = 0 ∧
    wii_shift_position model.position (MenuItemArray_size model.items) ≤ model.position ∧
    model.position < wii_shift_position model.position (MenuItemArray_size model.items) + 6 ∧
    ∃ out, menu_draw_callback f MenuStyle.MenuStyleWii model = some out ∧
      (∃ i item cmds, i < 6 ∧ i % 2 = model.position % 2 ∧
        size_t_add (wii_shift_position model.position (MenuItemArray_size model.items)) i
          = model.position ∧
        MenuItemArray_get model.items model.position = some item ∧
        draw_wii_slot f model model.position (MenuItemArray_size model.items)
          (wii_shift_position model.position (MenuItemArray_size model.items)) i = some cmds ∧
        cmds =
          [DrawCmd.elements_slightly_rounded_box (0 + ((i / 2) * 43 + 1))
             (0 + (model.position % 2) * 32) 40 30,
           DrawCmd.canvas_set_color Color.ColorWhite] ++
          menu_centered_icon item ((i / 2) * 43 + 1) ((model.position % 2) * 32) 40 20 ++
          [DrawCmd.elements_scrollable_text_line (20 + ((i / 2) * 43 + 1))
             (26 + (model.position % 2) * 32) 36 (wii_name f item)
             (menu_scroll_counter model true) false true,
           DrawCmd.canvas_set_color Color.ColorBlack] ∧
        ∀ x ∈ cmds, x ∈ out) ∧
      (∀ q : Nat, q / 2 = model.position / 2 → q ≠ model.position →
        q < MenuItemArray_size model.items →
        ∃ i item cmds, i < 6 ∧ i % 2 = q % 2 ∧
          size_t_add (wii_shift_position model.position (MenuItemArray_size model.items)) i
            = q ∧
          MenuItemArray_get model.items q = some item ∧
          draw_wii_slot f model model.position (MenuItemArray_size model.items)
            (wii_shift_position model.position (MenuItemArray_size model.items)) i
            = some cmds ∧
          cmds =
            menu_centered_icon item ((i / 2) * 43 + 1) ((q % 2) * 32) 40 20 ++
            [DrawCmd.elements_scrollable_text_line (20 + ((i / 2) * 43 + 1))
               (26 + (q % 2) * 32) 36 (wii_name f item)
               (menu_scroll_counter model false) false true,
             DrawCmd.elements_frame (0 + ((i / 2) * 43 + 1)) (0 + (q % 2) * 32) 40 30] ∧
          ∀ x ∈ cmds, x ∈ out) := by
  obtain ⟨heven, hle, hlt⟩ := wii_shift_position_bounds model.position
    (MenuItemArray_size model.items) hrep hpos
  obtain ⟨out, hout, hpasses⟩ := wii_render_passes f model (by omega)
  refine ⟨heven, hle, hlt, out, hout, ?_, ?_⟩
  · obtain ⟨item, hitem⟩ := MenuItemArray_get_of_lt model.items _ hpos
    have hadd : size_t_add (wii_shift_position model.position (MenuItemArray_size model.items))
        (model.position - wii_shift_position model.position (MenuItemArray_size model.items))
        = model.position := by
      simp only [size_t_add, SIZE_T_MOD] at *
      omega
    have hrow : (model.position
        - wii_shift_position model.position (MenuItemArray_size model.items)) % 2
        = model.position % 2 := by omega
    have hdraw := draw_wii_slot_selected f model (MenuItemArray_size model.items) _ _ item
      (by rw [hadd]; exact hpos) hadd hitem
    rw [hrow] at hdraw
    exact ⟨_, item, _, by omega, hrow, hadd, hitem, hdraw, rfl,
      hpasses _ (by omega) _ hdraw⟩
  · intro q hq hne hqc
    obtain ⟨item, hitem⟩ := MenuItemArray_get_of_lt model.items q hqc
    have hadd : size_t_add (wii_shift_position model.position (MenuItemArray_size model.items))
        (q - wii_shift_position model.position (MenuItemArray_size model.items)) = q := by
      simp only [size_t_add, SIZE_T_MOD] at *
      omega
    have hrow : (q - wii_shift_position model.position (MenuItemArray_size model.items)) % 2
        = q % 2 := by omega
    have hdraw := draw_wii_slot_other f model (MenuItemArray_size model.items) _ _ item
      (by rw [hadd]; exact hqc) (by rw [hadd]; exact hne) (by rw [hadd]; exact hitem)
    rw [hrow] at hdraw
    exact ⟨_, item, _, by omega, hrow, hadd, hitem, hdraw, rfl,
      hpasses _ (by omega) _ hdraw⟩

/-- C19 on the ten-item store with position 9: the window start is even, a pass
in row `9 % 2` draws the selected item with its calls in the rendering, and the
filled box of the rendering lies at column offset 87 and height 32, the row 1
of the third column. -/
theorem wii_renderer_shows_selected_witness :
    wii_shift_position ten_item_menu.model.position
      (MenuItemArray_size ten_item_menu.model.items) % 2 = 0 ∧
    (∃ out, menu_draw_callback label_text_is MenuStyle.MenuStyleWii ten_item_menu.model
        = some out ∧
      ∃ i item cmds, i < 6 ∧ i % 2 = ten_item_menu.model.position % 2 ∧
        MenuItemArray_get ten_item_menu.model.items ten_item_menu.model.position = some item ∧
        draw_wii_slot label_text_is ten_item_menu.model ten_item_menu.model.position
          (MenuItemArray_size ten_item_menu.model.items)
          (wii_shift_position ten_item_menu.model.position
            (MenuItemArray_size ten_item_menu.model.items)) i = some cmds ∧
        ∀ x ∈ cmds, x ∈ out) ∧
    DrawCmd.elements_slightly_rounded_box 87 32 40 30 ∈
      (menu_draw_callback label_text_is MenuStyle.MenuStyleWii ten_item_menu.model).getD [] :=
  have h := wii_renderer_shows_selected label_text_is ten_item_menu.model (by decide)
    (by decide)
  ⟨h.1,
   by
    obtain ⟨out, hout, ⟨i, item, cmds, hi, hrow, _, hitem, hdraw, _, hmem⟩, _⟩ := h.2.2.2
    exact ⟨out, hout, i, item, cmds, hi, hrow, hitem, hdraw, hmem⟩,
   by decide⟩

end MenuSpec
